import Mathlib

/-!
# FinBoard data-acquisition pipeline: shallow embedding and verification

Embedding of the core pipeline of the FinBoard repository:

* `src/utils/cache.ts` — TTL response cache (`generateCacheKey`, `getCachedData`,
  `setCachedData`, `invalidateCache`, `getCacheAge`) and the currency inference
  pass (`findCurrencyInObject`, `detectCurrency`).
* `src/utils/api.ts` — the fetch orchestrator (`fetchApiData` with rate-limit
  tracking `checkRateLimit` / `recordRateLimit`, retry/backoff, CORS proxy
  fallback) and the nested path resolver `getNestedValue`.

Modelling conventions:

* JSON values are the inductive `Json`; a JavaScript `undefined` payload is an
  `Option _` `none` where it can occur.  Prototype-chain members of JS objects
  (other than the `length` property of arrays) are outside the JSON data model.
* Machine time (`Date.now()`) is an explicit `Int` of milliseconds threaded
  through a `FetchState`; `setTimeout` sleeps advance the clock and are
  accounted in `sleptMs`.
* The network is an oracle `NetOracle` answering each `fetch` with an abstract
  outcome: an OK JSON body, an HTTP error status together with the already
  extracted error message, the numeric Retry-After value and whether the body
  parses as JSON, a thrown `TypeError` (carrying its message), or an OK
  response whose body is not valid JSON.  A JS member access on a `null` body
  throws a `TypeError` rather than yielding `undefined`; the embedding models
  this throw (`Json.isNull` / `nullReadMsg`) at every unguarded property read
  of a freshly parsed body.
* `new URL(...)` parsing of well-formed URLs is modelled by the structured type
  `Url` (origin, pathname, decoded query parameters); the `localeCompare`
  comparator used to sort query parameters is modelled by the lexicographic
  order on strings (both are total orders, and they agree on the ASCII keys the
  application uses).  The fallback branch of `generateCacheKey` for unparseable
  URL strings is outside the model.
-/

namespace FinBoard

/-- JSON-like values (the `any` payloads moved around by the pipeline). -/
inductive Json where
  | null : Json
  | bool (b : Bool) : Json
  | num (n : Int) : Json
  | str (s : String) : Json
  | arr (elems : List Json) : Json
  | obj (fields : List (String × Json)) : Json

/-- First-match association-list lookup (JS `Map.get` / own-property access). -/
def assocGet {α : Type} : List (String × α) → String → Option α
  | [], _ => none
  | (k, v) :: rest, key => if k = key then some v else assocGet rest key

/-- JS `Map.set`: replace the binding in place if the key exists, else append. -/
def assocSet {α : Type} : List (String × α) → String → α → List (String × α)
  | [], key, v => [(key, v)]
  | (k, w) :: rest, key, v =>
      if k = key then (key, v) :: rest else (k, w) :: assocSet rest key v

/-- JS `Map.delete`: remove the binding of the key.  (A `Map` never holds two
bindings of one key, so removing every occurrence agrees with it on all states
the code can build.) -/
def assocDel {α : Type} : List (String × α) → String → List (String × α)
  | [], _ => []
  | (k, w) :: rest, key =>
      if k = key then assocDel rest key else (k, w) :: assocDel rest key

/-!
JS string built-ins, implemented by structural recursion on the character
list of the string so that every definition evaluates inside the kernel.
JS strings are UTF-16; the embedding works with Unicode code points, which
agrees with UTF-16 on the basic multilingual plane the application uses.
-/

/-- Does the character list start with the pattern? -/
def startsWithChars : List Char → List Char → Bool
  | [], _ => true
  | _ :: _, [] => false
  | p :: ps, c :: cs => p == c && startsWithChars ps cs

/-- Does the character list contain the pattern as a contiguous sublist? -/
def containsSubList (pat : List Char) : List Char → Bool
  | [] => startsWithChars pat []
  | c :: cs => startsWithChars pat (c :: cs) || containsSubList pat cs

/-- JS `String.prototype.includes` (substring test). -/
def jsIncludes (s sub : String) : Bool :=
  containsSubList sub.data s.data

/-- Splitting scan of JS `String.prototype.split` for a non-empty separator:
left-to-right, non-overlapping occurrences.  The fuel argument keeps the
recursion structural; every step consumes one unit and shortens the list, so
fuel equal to the initial length is never exhausted and the fuel-out branch
(which conservatively closes the current segment with the rest) is unreachable
from `jsSplit`. -/
def splitOnCharsGo (sep : List Char) : Nat → List Char → List Char → List (List Char)
  | _, [], acc => [acc.reverse]
  | 0, l, acc => [acc.reverse ++ l]
  | fuel + 1, c :: cs, acc =>
      if startsWithChars sep (c :: cs) then
        acc.reverse :: splitOnCharsGo sep fuel (List.drop (sep.length - 1) cs) []
      else splitOnCharsGo sep fuel cs (c :: acc)

/-- JS `s.split(sep)` (for the non-empty separators the code uses; an empty
separator returns the string whole). -/
def jsSplit (s sep : String) : List String :=
  if sep = "" then [s]
  else (splitOnCharsGo sep.data s.data.length s.data []).map (fun l => ⟨l⟩)

/-- Remove the first occurrence of the pattern from the character list. -/
def removeFirstOcc (pat : List Char) : List Char → List Char
  | [] => []
  | c :: cs =>
      if startsWithChars pat (c :: cs) then List.drop (pat.length - 1) cs
      else c :: removeFirstOcc pat cs

/-- JS `s.replace(pat, "")`: delete the first occurrence of `pat`. -/
def replaceFirst (s pat : String) : String :=
  if pat = "" then s else ⟨removeFirstOcc pat.data s.data⟩

/-- The whitespace recognized by JS trimming (the forms the code encounters). -/
def isWhitespaceChar (c : Char) : Bool :=
  c == ' ' || c == '\t' || c == '\n' || c == '\r'

/-- JS `String.prototype.trim`. -/
def jsTrim (s : String) : String :=
  ⟨((s.data.dropWhile isWhitespaceChar).reverse.dropWhile isWhitespaceChar).reverse⟩

/-- JS `String.prototype.toLowerCase` (ASCII range, as the data requires). -/
def jsToLower (s : String) : String := ⟨s.data.map Char.toLower⟩

/-- JS `String.prototype.toUpperCase` (ASCII range, as the data requires). -/
def jsToUpper (s : String) : String := ⟨s.data.map Char.toUpper⟩

/-- JS `s.substring(0, n)`. -/
def strTake (s : String) (n : Nat) : String := ⟨s.data.take n⟩

/-- Join a list of strings with a separator (JS `Array.prototype.join`). -/
def joinWith (sep : String) : List String → String
  | [] => ""
  | [x] => x
  | x :: y :: rest => x ++ sep ++ joinWith sep (y :: rest)

/-- Truthiness of an optional JS string (`undefined` and `""` are falsy). -/
def jsStrTruthy : Option String → Bool
  | none => false
  | some s => s != ""

/-- JS truthiness of a JSON value. -/
def Json.truthy : Json → Bool
  | .null => false
  | .bool b => b
  | .num n => n != 0
  | .str s => s != ""
  | .arr _ => true
  | .obj _ => true

/-- Truthiness of an optional JSON value (`undefined` is falsy). -/
def jsOptTruthy : Option Json → Bool
  | none => false
  | some j => j.truthy

/-- Is the value JSON `null`?  A JS member access on `null` throws a
`TypeError` instead of yielding `undefined`, so the code paths that read a
property off a freshly parsed body must check this case separately.
(`jsonGet` models member access on every other value, where JS yields
`undefined` for an absent member.) -/
def Json.isNull : Json → Bool
  | .null => true
  | _ => false

mutual

/-- JS string conversion of a JSON value (as used in template literals). -/
def Json.jsToString : Json → String
  | .null => "null"
  | .bool b => if b then "true" else "false"
  | .num n => toString n
  | .str s => s
  | .arr xs => joinWith "," (jsToStringList xs)
  | .obj _ => "[object Object]"

/-- String conversion of each element of a JSON array. -/
def jsToStringList : List Json → List String
  | [] => []
  | x :: xs => x.jsToString :: jsToStringList xs

end

/-- Value of the decimal digits of a character list. -/
def digitsToNat (l : List Char) : Nat :=
  l.foldl (fun acc c => acc * 10 + (c.toNat - 48)) 0

/-- A canonical array-index string (`"0"`, `"1"`, ...; no sign, no leading
zero): exactly the keys for which JS `key in array` holds of a dense array. -/
def parseCanonicalIndex (s : String) : Option Nat :=
  let cs := s.toList
  if cs ≠ [] ∧ cs.all Char.isDigit ∧ (s = "0" ∨ cs.headD ' ' ≠ '0') then
    some (digitsToNat cs)
  else none

/-- JS `parseInt(s, 10)`: skip leading whitespace, optional sign, then the
longest run of leading digits; `none` models `NaN`. -/
def parseIntJs (s : String) : Option Int :=
  let cs := s.toList.dropWhile (fun c => c = ' ' ∨ c = '\t' ∨ c = '\n' ∨ c = '\r')
  match cs with
  | '-' :: rest =>
      let d := rest.takeWhile Char.isDigit
      if d = [] then none else some (-(digitsToNat d : Int))
  | '+' :: rest =>
      let d := rest.takeWhile Char.isDigit
      if d = [] then none else some (digitsToNat d : Int)
  | rest =>
      let d := rest.takeWhile Char.isDigit
      if d = [] then none else some (digitsToNat d : Int)

/-- Property access `j[key]` of a JSON value: own fields of objects; canonical
index members and the `length` property of arrays; `undefined` otherwise. -/
def jsonGet : Json → String → Option Json
  | .obj fields, key => assocGet fields key
  | .arr xs, key =>
      if key = "length" then some (.num xs.length)
      else
        match parseCanonicalIndex key with
        | some i => xs.get? i
        | none => none
  | _, _ => none

/-- Euclidean-style ceiling of `a / b` for positive `b` (JS `Math.ceil` of the
exact rational quotient). -/
def ceilDiv (a b : Int) : Int := -((-a).fdiv b)

/-! ## TTL cache (`src/utils/cache.ts`) -/

/-- A well-formed URL as produced by `new URL(url)`: origin, pathname and the
decoded query parameters in their textual order. -/
structure Url where
  origin : String
  pathname : String
  params : List (String × String)
deriving DecidableEq

/-- The URL rendered back to a string (the raw `url` argument the orchestrator
receives and performs substring checks on). -/
def Url.toString (u : Url) : String :=
  u.origin ++ u.pathname ++
    (if u.params = [] then ""
     else "?" ++ joinWith "&" (u.params.map (fun p => p.1 ++ "=" ++ p.2)))

/-- Comparator used to sort query parameters: `([a], [b]) => a.localeCompare(b)`,
modelled as the lexicographic order on the parameter names. -/
def keyLE (p q : String × String) : Prop := p.1.data ≤ q.1.data

instance : DecidableRel keyLE := fun p q => inferInstanceAs (Decidable (p.1.data ≤ q.1.data))

instance : IsTotal (String × String) keyLE := ⟨fun a b => le_total a.1.data b.1.data⟩

instance : IsTrans (String × String) keyLE := ⟨fun _ _ _ h1 h2 => le_trans h1 h2⟩

/-- The strict companion of `keyLE`, used to show that a sorted parameter
list with pairwise-distinct names is unique. -/
def keyLT (p q : String × String) : Prop := keyLE p q ∧ p.1 ≠ q.1

/-- `generateCacheKey` of `src/utils/cache.ts` (URL-parse success branch):
sort the query parameters, rebuild `origin + pathname + "?" + sortedParams`,
then append `&_key=` with the first 8 characters of the API key and
`&_header=` with the header name, when each is a truthy string. -/
def generateCacheKey (url : Url) (apiKey apiKeyHeader : Option String) : String :=
  let sortedParams :=
    joinWith "&"
      ((List.insertionSort keyLE url.params).map (fun p => p.1 ++ "=" ++ p.2))
  let baseUrl := url.origin ++ url.pathname
  let keySuffix :=
    if jsStrTruthy apiKey then "&_key=" ++ strTake (apiKey.getD "") 8 else ""
  let headerSuffix :=
    if jsStrTruthy apiKeyHeader then "&_header=" ++ (apiKeyHeader.getD "") else ""
  baseUrl ++ "?" ++ sortedParams ++ keySuffix ++ headerSuffix

/-- `CacheEntry` of `src/utils/cache.ts`.  `data` is `Option Json` because the
CORS-fallback path can store a JS `undefined` payload (modelled as `none`). -/
structure CacheEntry where
  data : Option Json
  timestamp : Int
  expiresAt : Int
  url : String

/-- `getCachedData`: a stored-but-expired entry is removed and reported as a
miss; an unexpired entry is a hit.  Returns the lookup result together with
the (possibly mutated) cache. -/
def getCachedData (key : String) (now : Int) (cache : List (String × CacheEntry)) :
    Option CacheEntry × List (String × CacheEntry) :=
  match assocGet cache key with
  | none => (none, cache)
  | some entry =>
      if now ≥ entry.expiresAt then (none, assocDel cache key)
      else (some entry, cache)

/-- `setCachedData`: store `data` under `key` with
`expiresAt = now + ttlSeconds * 1000`. -/
def setCachedData (key : String) (data : Option Json) (ttlSeconds : Int)
    (url : String) (now : Int) (cache : List (String × CacheEntry)) :
    List (String × CacheEntry) :=
  assocSet cache key ⟨data, now, now + ttlSeconds * 1000, url⟩

/-- `invalidateCache`: remove the entry of `key`. -/
def invalidateCache (key : String) (cache : List (String × CacheEntry)) :
    List (String × CacheEntry) :=
  assocDel cache key

/-- `getCacheAge`: age of an unexpired entry in whole seconds, else `none`. -/
def getCacheAge (key : String) (now : Int) (cache : List (String × CacheEntry)) :
    Option Int :=
  match assocGet cache key with
  | none => none
  | some entry =>
      if now ≥ entry.expiresAt then none
      else some ((now - entry.timestamp).fdiv 1000)

/-! ## Currency inference (`src/utils/cache.ts`, currency utility) -/

/-- `CURRENCY_FIELD_NAMES`. -/
def CURRENCY_FIELD_NAMES : List String :=
  ["currency", "currencyCode", "currency_code", "base_currency", "baseCurrency",
   "vs_currency", "vsCurrency", "quote_currency", "quoteCurrency", "symbol",
   "code", "currencySymbol", "currency_symbol", "unit", "denomination"]

/-- `CURRENCY_CODE_TO_SYMBOL`. -/
def CURRENCY_CODE_TO_SYMBOL : List (String × String) :=
  [("USD", "$"), ("INR", "₹"), ("EUR", "€"), ("GBP", "£"), ("JPY", "¥"),
   ("CNY", "¥"), ("AUD", "A$"), ("CAD", "C$"), ("CHF", "CHF"), ("BTC", "₿"),
   ("ETH", "Ξ"), ("USDT", "$"), ("USDC", "$")]

/-- `SYMBOL_TO_CURRENCY_CODE`. -/
def SYMBOL_TO_CURRENCY_CODE : List (String × String) :=
  [("$", "USD"), ("₹", "INR"), ("€", "EUR"), ("£", "GBP"), ("¥", "JPY"),
   ("₿", "BTC"), ("Ξ", "ETH")]

/-- Result of currency detection: code, display symbol and the path at which
the currency field was found. -/
structure CurrencyInfo where
  code : String
  symbol : String
  path : String
deriving DecidableEq

/-- The regex test `/^[A-Z]{3}$/` together with the preceding `length === 3`. -/
def isAlpha3 (s : String) : Bool :=
  s.length == 3 && s.toList.all (fun c => 65 ≤ c.toNat && c.toNat ≤ 90)

/-- Path extension `path ? path + "." + key : key`. -/
def extendPath (path key : String) : String :=
  if path = "" then key else path ++ "." ++ key

/-- The per-key currency check inside the key loop of `findCurrencyInObject`:
a key whose lowercase form contains a known currency field name, holding a
non-blank string value that is either a three-letter code or a known symbol. -/
def checkCurrencyKey (key : String) (value : Json) (path : String) :
    Option CurrencyInfo :=
  let lowerKey := jsToLower key
  if CURRENCY_FIELD_NAMES.any (fun f => jsIncludes lowerKey (jsToLower f)) then
    match value with
    | .str s =>
        if jsTrim s != "" then
          let currencyValue := jsToUpper (jsTrim s)
          if isAlpha3 currencyValue then
            some ⟨currencyValue,
                  (assocGet CURRENCY_CODE_TO_SYMBOL currencyValue).getD currencyValue,
                  extendPath path key⟩
          else
            match assocGet SYMBOL_TO_CURRENCY_CODE currencyValue with
            | some code => some ⟨code, currencyValue, extendPath path key⟩
            | none => none
        else none
    | _ => none
  else none

mutual

/-- `findCurrencyInObject`: depth-guarded recursive scan.  A non-array object
is scanned key by key (own-key check, then descent into a non-array object
value); an array is scanned through its first element with incremented depth. -/
def findCurrencyInObject (j : Json) (path : String) (maxDepth currentDepth : Nat) :
    Option CurrencyInfo :=
  if currentDepth > maxDepth then none
  else
    match j with
    | .obj fields => findCurrencyInFields fields path maxDepth currentDepth
    | .arr (x :: _) => findCurrencyInObject x path maxDepth (currentDepth + 1)
    | .arr [] => none
    | .null => none
    | .bool _ => none
    | .num _ => none
    | .str _ => none

/-- The `for (const key of Object.keys(obj))` loop of `findCurrencyInObject`:
for each field in order, first the own-key check, then recursion into the
value when it is a non-null non-array object, then the next field. -/
def findCurrencyInFields (fields : List (String × Json)) (path : String)
    (maxDepth currentDepth : Nat) : Option CurrencyInfo :=
  match fields with
  | [] => none
  | (key, value) :: rest =>
      match checkCurrencyKey key value path with
      | some r => some r
      | none =>
          match
            (match value with
             | .obj _ => findCurrencyInObject value (extendPath path key)
                           maxDepth (currentDepth + 1)
             | _ => none) with
          | some r => some r
          | none => findCurrencyInFields rest path maxDepth currentDepth

end

/-- `detectCurrency`: scan the root (non-null objects and arrays only), then
retry rooted at the `data` sub-property when it is an object, then at the
first element of a root-level array. -/
def detectCurrency (data : Json) : Option CurrencyInfo :=
  match data with
  | .obj _ | .arr _ =>
      match findCurrencyInObject data "" 5 0 with
      | some r => some r
      | none =>
          match
            (match jsonGet data "data" with
             | some d =>
                 match d with
                 | .obj _ | .arr _ => findCurrencyInObject d "data" 5 0
                 | _ => none
             | none => none) with
          | some r => some r
          | none =>
              match data with
              | .arr (x :: _) => findCurrencyInObject x "[0]" 5 0
              | _ => none
  | _ => none

/-- `getCurrencySymbol`. -/
def getCurrencySymbol (code : String) : String :=
  (assocGet CURRENCY_CODE_TO_SYMBOL (jsToUpper code)).getD code

/-- `getCurrencyCode`. -/
def getCurrencyCode (symbol : String) : Option String :=
  assocGet SYMBOL_TO_CURRENCY_CODE symbol

/-! ## Nested path resolution (`getNestedValue` of `src/utils/api.ts`) -/

/-- One step of the `for (const key of keys)` loop of `getNestedValue`: a key
with bracket notation looks up the part before `[`, requires the result to be
an array and indexes it with `parseInt` of the part after `[` (first `]`
removed); a plain key is a property access requiring `key in current`. -/
def resolveKey (current : Json) (key : String) : Option Json :=
  if jsIncludes key "[" then
    let parts := jsSplit key "["
    let arrayKey := parts.headD ""
    let indexStr := (parts.drop 1).headD ""
    let index := parseIntJs (replaceFirst indexStr "]")
    match jsonGet current arrayKey with
    | some next =>
        match next, index with
        | .arr xs, some i =>
            if h : 0 ≤ i ∧ i.toNat < xs.length then some (xs.get ⟨i.toNat, h.2⟩)
            else none
        | _, _ => none
    | none => none
  else jsonGet current key

/-- Resolution of a list of path segments, stopping with `none` the moment a
segment fails to resolve. -/
def resolvePath : Json → List String → Option Json
  | current, [] => some current
  | current, key :: rest =>
      match resolveKey current key with
      | some next => resolvePath next rest
      | none => none

/-- `getNestedValue`: split the path on `.` and resolve segment by segment;
`none` models the `undefined` returned for any missing path, out-of-bounds
index or non-object intermediate, and no exception can be raised (the function
is total). -/
def getNestedValue (obj : Json) (path : String) : Option Json :=
  resolvePath obj (jsSplit path ".")

/-! ## Fetch orchestrator (`fetchApiData` of `src/utils/api.ts`) -/

/-- An entry of the in-memory `rateLimitCache`, keyed by origin. -/
structure RateLimitEntry where
  count : Int
  resetTime : Int
deriving DecidableEq

/-- Result of `checkRateLimit` together with the cleaned rate-limit map. -/
structure RateCheck where
  limited : Bool
  resetTime : Option Int
  limits : List (String × RateLimitEntry)

/-- `checkRateLimit`: blocked while `now < resetTime`; an expired record is
deleted on the first check at or past its reset time. -/
def checkRateLimit (origin : String) (now : Int)
    (limits : List (String × RateLimitEntry)) : RateCheck :=
  match assocGet limits origin with
  | some l =>
      if now < l.resetTime then ⟨true, some l.resetTime, limits⟩
      else ⟨false, none, assocDel limits origin⟩
  | none => ⟨false, none, limits⟩

/-- `recordRateLimit`. -/
def recordRateLimit (origin : String) (resetTime : Int)
    (limits : List (String × RateLimitEntry)) : List (String × RateLimitEntry) :=
  assocSet limits origin ⟨1, resetTime⟩

/-- Abstracted outcome of one `fetch` call.  For a non-OK HTTP response the
oracle supplies the status, the numeric Retry-After value (when present), the
error message already extracted from the body by the try/catch-guarded
extraction of the main path, and whether the body parses as JSON — the main
path swallows a parse failure, but the CORS-fallback error path calls
`json()` unguarded, so its behaviour depends on this flag.  A rejected
`fetch` is a `typeErr` carrying the `TypeError` message; `badJson` is an OK
response whose body fails JSON parsing (carrying the response text). -/
inductive NetResult where
  | ok (body : Json)
  | http (status : Nat) (retryAfter : Option Int) (errMsg : String) (bodyIsJson : Bool)
  | typeErr (msg : String)
  | badJson (text : String)

/-- The network environment: the outcome of a `fetch` of a URL at a time. -/
def NetOracle : Type := String → Int → NetResult

/-- A performed network request: the fetched URL and the custom auth header
(name, key) attached to it, if any. -/
structure NetCall where
  url : String
  authHeader : Option (String × String)
deriving DecidableEq

/-- The mutable world of the orchestrator: response cache, per-origin rate
limits, the clock (ms), the trace of performed network requests, and the
accumulated simulated `setTimeout` time (ms). -/
structure FetchState where
  cache : List (String × CacheEntry)
  rateLimits : List (String × RateLimitEntry)
  now : Int
  calls : List NetCall
  sleptMs : Int

/-- The `ApiResponse & fromCache/cacheAge` value returned by `fetchApiData`.
Fields that the code leaves absent are `none` / `false`. -/
structure ApiResult where
  data : Option Json
  error : Option String
  timestamp : Int
  fromCache : Bool
  cacheAge : Option Int

/-- `cacheTTL !== undefined && cacheTTL > 0`. -/
def ttlPos : Option Int → Bool
  | some t => 0 < t
  | none => false

/-- The `useProxy` URL construction (both the main proxy branch and the CORS
fallback): `/api/proxy?url=...` plus the key/header pair when both are truthy.
The `window.location.origin` prefix and percent-encoding are elided. -/
def proxyUrlString (u : Url) (apiKey apiKeyHeader : Option String) : String :=
  let base := "/api/proxy?url=" ++ u.toString
  if jsStrTruthy apiKey && jsStrTruthy apiKeyHeader then
    base ++ "&apiKey=" ++ (apiKey.getD "") ++ "&apiKeyHeader=" ++ (apiKeyHeader.getD "")
  else base

/-- The header decision of the direct request path: attach the credential as a
custom header only if both parts are truthy and non-blank after trimming and
the raw URL does not already embed an auth-shaped query parameter. -/
def shouldSendAuthHeader (useProxy : Bool) (rawUrl : String)
    (apiKey apiKeyHeader : Option String) : Bool :=
  if useProxy then false
  else
    let urlHasAuth := jsIncludes rawUrl "token=" || jsIncludes rawUrl "apikey=" ||
                      jsIncludes rawUrl "api_key=" || jsIncludes rawUrl "key="
    jsStrTruthy apiKey && jsStrTruthy apiKeyHeader &&
      jsTrim (apiKey.getD "") != "" && jsTrim (apiKeyHeader.getD "") != "" && !urlHasAuth

/-- `Invalidate cache on error` helper: drop the entry of the request key when
a positive TTL is configured. -/
def invalidateOnError (url : Url) (apiKey apiKeyHeader : Option String)
    (cacheTTL : Option Int) (cache : List (String × CacheEntry)) :
    List (String × CacheEntry) :=
  if ttlPos cacheTTL then
    invalidateCache (generateCacheKey url apiKey apiKeyHeader) cache
  else cache

/-- Store a successful payload when a positive TTL is configured. -/
def storeOnSuccess (url : Url) (apiKey apiKeyHeader : Option String)
    (cacheTTL : Option Int) (d : Option Json) (now : Int)
    (cache : List (String × CacheEntry)) : List (String × CacheEntry) :=
  match cacheTTL with
  | some t =>
      if 0 < t then
        setCachedData (generateCacheKey url apiKey apiKeyHeader) d t url.toString now cache
      else cache
  | none => cache

/-- The 401/403 message construction (Finnhub-specific help for 403). -/
def authErrorMessage (rawUrl : String) (status : Nat) (errMsg : String) : String :=
  if jsIncludes rawUrl "finnhub.io" && status == 403 then
    "Finnhub API returned 403 Forbidden. This usually means:\n\n1. Your API key might be invalid or expired\n2. The endpoint requires a paid plan (candle data often requires a subscription)\n3. You\x27ve exceeded your API rate limit\n\nTry:\n- Verify your API key at https://finnhub.io/\n- Test with a simpler endpoint like /quote first\n- Check if your plan includes this endpoint\n\nOriginal error: " ++ errMsg
  else
    "API returned " ++ toString status ++ ": " ++ errMsg ++ "\n\nPossible causes:\n- Invalid or expired API key\n- Insufficient permissions for this endpoint\n- Rate limit exceeded\n- Endpoint requires a paid subscription\n\nPlease check your API key and endpoint requirements."

/-- The Alpha Vantage help text appended to in-body API errors. -/
def alphaVantageMessage (errMsg : String) : String :=
  let base := "Alpha Vantage API Error: " ++ errMsg
  if jsIncludes errMsg "Invalid API call" then
    base ++ "\n\nCommon causes:\n1. Rate limit exceeded (free tier: 5 calls/minute, 500 calls/day)\n2. Invalid API key or API key not activated\n3. Missing required parameters (e.g., symbol, interval, function)\n4. Invalid parameter values\n\nSolutions:\n- Wait 1 minute if you hit rate limit\n- Verify your API key at https://www.alphavantage.co/support/#api-key\n- Check the API documentation: https://www.alphavantage.co/documentation/\n- Ensure all required parameters are included in your URL"
  else if jsIncludes errMsg "Thank you for using Alpha Vantage" then
    base ++ "\n\nThis usually means:\n- You\x27ve exceeded the free tier rate limit (5 calls/minute)\n- Wait 1 minute before trying again\n- Consider upgrading to a paid plan for higher limits"
  else base

/-- The auth header attached to the direct request, when the header decision
is positive. -/
def authHeaderOf (sendHdr : Bool) (apiKey apiKeyHeader : Option String) :
    Option (String × String) :=
  if sendHdr then some (apiKeyHeader.getD "", apiKey.getD "") else none

/-- The wait reported when a 429 surfaces with no retries left. -/
def rateLimitWait (resetTime now : Int) : Int :=
  if resetTime != 0 then ceilDiv (resetTime - now) 1000 else 60

/-- First truthy value among candidates (JS `a || b || c`). -/
def firstTruthyJson : List (Option Json) → Option Json
  | [] => none
  | o :: rest => if jsOptTruthy o then o else firstTruthyJson rest

/-- The in-body error message of the direct path:
`data.error || data["Error Message"] || data["Note"] || "API returned an error"`. -/
def apiErrorMsgOf (body : Json) : String :=
  match firstTruthyJson [jsonGet body "error", jsonGet body "Error Message",
                         jsonGet body "Note"] with
  | some j => j.jsToString
  | none => "API returned an error"

/-- The error message thrown for an in-body API error of the direct path
(with Alpha Vantage help text when the URL targets alphavantage.co).  The
`.includes` probes of the source assume a string-valued error field; an
object- or number-valued field on an Alpha Vantage URL would itself throw in
JS, reaching the same generic Failure with a different message text — no
theorem below depends on that corner's message. -/
def directApiErrorMessage (rawUrl : String) (body : Json) : String :=
  if jsIncludes rawUrl "alphavantage.co" then alphaVantageMessage (apiErrorMsgOf body)
  else apiErrorMsgOf body

/-- The `TypeError` message of a member access on `null` (V8 wording; no
engine's wording mentions `fetch`, so the outer catch treats the throw as a
generic error rather than a CORS-shaped one). -/
def nullReadMsg (prop : String) : String :=
  "Cannot read properties of null (reading \x27" ++ prop ++ "\x27)"

/-- The stock CORS failure message of the proxy-fallback catch. -/
def corsFailureMsg : String :=
  "CORS error: Unable to fetch data. The API may not allow requests from this origin. Try using a different API or check if the API supports CORS."

/-- A `Failure` result: `data: null` with an error message. -/
def failureResult (msg : String) (now : Int) : ApiResult :=
  ⟨none, some msg, now, false, none⟩

/-- An exception reaching the outer `catch` of `fetchApiData`: a `TypeError`
(from a rejected `fetch`) carrying its message, or an ordinary `Error`. -/
inductive Thrown where
  | typeErr (msg : String)
  | err (msg : String)

/-- The outer `catch` of `fetchApiData`.  A CORS-shaped `TypeError` (message
mentioning `fetch`) on the direct path replays the identical request through
the proxy exactly once: a proxy success with a non-null body returns (and
caches) `proxyData.data`, while a null body makes the `proxyData.data` access
throw, so the inner catch returns the CORS failure with no cache write; a
non-OK proxy response invalidates the cache and falls to the CORS failure
only when its body parses as JSON — the unguarded `json()` call throws before
the invalidation is reached otherwise; a rejected or non-JSON-with-OK-status
proxy response falls to the CORS failure directly.  Every other exception
invalidates the cache (when TTL is positive) and surfaces as a `Failure` with
the exception message. -/
def catchHandler (net : NetOracle) (url : Url) (apiKey apiKeyHeader : Option String)
    (useProxy : Bool) (cacheTTL : Option Int) (e : Thrown) (s : FetchState) :
    ApiResult × FetchState :=
  match e with
  | .typeErr msg =>
      if jsIncludes msg "fetch" && !useProxy then
        let pUrl := proxyUrlString url apiKey apiKeyHeader
        let s1 : FetchState := { s with calls := s.calls ++ [⟨pUrl, none⟩] }
        match net pUrl s1.now with
        | .ok body =>
            if body.isNull then
              (failureResult corsFailureMsg s1.now, s1)
            else
              let d := jsonGet body "data"
              let s2 : FetchState :=
                { s1 with cache := storeOnSuccess url apiKey apiKeyHeader cacheTTL d
                                     s1.now s1.cache }
              (⟨d, none, s1.now, false, none⟩, s2)
        | .http _ _ _ bodyIsJson =>
            if bodyIsJson then
              let s2 : FetchState :=
                { s1 with cache := invalidateOnError url apiKey apiKeyHeader cacheTTL
                                     s1.cache }
              (failureResult corsFailureMsg s2.now, s2)
            else
              (failureResult corsFailureMsg s1.now, s1)
        | .typeErr _ => (failureResult corsFailureMsg s1.now, s1)
        | .badJson _ => (failureResult corsFailureMsg s1.now, s1)
      else
        let s1 : FetchState :=
          { s with cache := invalidateOnError url apiKey apiKeyHeader cacheTTL s.cache }
        (failureResult msg s1.now, s1)
  | .err msg =>
      let s1 : FetchState :=
        { s with cache := invalidateOnError url apiKey apiKeyHeader cacheTTL s.cache }
      (failureResult msg s1.now, s1)

/-- One pass through the body of `fetchApiData` (everything except the two
recursive retry sites): `.inl` is a finished result, `.inr` the state from
which the call re-invokes itself with `retryCount + 1` after a simulated
sleep.  The order of the steps follows the source: cache check, rate-limit
check, URL/header construction, network call, response classification. -/
def fetchStep (net : NetOracle) (url : Url) (apiKey apiKeyHeader : Option String)
    (retryCount maxRetries : Nat) (useProxy : Bool) (cacheTTL : Option Int)
    (bypassCache : Bool) (s : FetchState) : (ApiResult × FetchState) ⊕ FetchState :=
  let key := generateCacheKey url apiKey apiKeyHeader
  let doCache := !bypassCache && ttlPos cacheTTL
  let looked := if doCache then getCachedData key s.now s.cache else (none, s.cache)
  let s1 : FetchState := { s with cache := looked.2 }
  match looked.1 with
  | some entry =>
      .inl (⟨entry.data, none, entry.timestamp, true, getCacheAge key s1.now s1.cache⟩, s1)
  | none =>
      let rc := checkRateLimit url.origin s1.now s1.rateLimits
      let s2 : FetchState := { s1 with rateLimits := rc.limits }
      if rc.limited then
        let w := ceilDiv (rc.resetTime.getD 0 - s2.now) 1000
        .inl (failureResult ("Rate limit exceeded. Please wait " ++ toString w ++
                " seconds before trying again.") s2.now, s2)
      else
        let finalUrl := if useProxy then proxyUrlString url apiKey apiKeyHeader
                        else url.toString
        let sendHdr := shouldSendAuthHeader useProxy url.toString apiKey apiKeyHeader
        let call : NetCall := ⟨finalUrl, authHeaderOf sendHdr apiKey apiKeyHeader⟩
        let s3 : FetchState := { s2 with calls := s2.calls ++ [call] }
        match net finalUrl s3.now with
        | .http status retryAfter errMsg _ =>
            if status == 429 then
              let resetTime := s3.now + (retryAfter.getD 60) * 1000
              let s4 : FetchState :=
                { s3 with rateLimits := recordRateLimit url.origin resetTime s3.rateLimits }
              if retryCount < maxRetries && resetTime != 0 then
                let waitMs := min (resetTime - s4.now) 60000
                .inr { s4 with now := s4.now + waitMs, sleptMs := s4.sleptMs + waitMs }
              else
                .inl (catchHandler net url apiKey apiKeyHeader useProxy cacheTTL
                        (.err ("API rate limit exceeded. Please wait " ++
                          toString (rateLimitWait resetTime s4.now) ++
                          " seconds before trying again.")) s4)
            else if status == 401 || status == 403 then
              .inl (catchHandler net url apiKey apiKeyHeader useProxy cacheTTL
                      (.err (authErrorMessage url.toString status errMsg)) s3)
            else if status == 400 then
              .inl (catchHandler net url apiKey apiKeyHeader useProxy cacheTTL
                      (.err ("Bad Request: " ++ errMsg ++
                        ". Check your API parameters (symbol format, parameter names, etc.).")) s3)
            else if 500 ≤ status && retryCount < maxRetries then
              let backoff : Int := (2 ^ retryCount : Nat) * 1000
              .inr { s3 with now := s3.now + backoff, sleptMs := s3.sleptMs + backoff }
            else
              .inl (catchHandler net url apiKey apiKeyHeader useProxy cacheTTL
                      (.err errMsg) s3)
        | .ok body =>
            if body.isNull then
              -- `data.error` is the first member access on the parsed body on
              -- both the proxy and the direct branch; on a null body it
              -- throws a `TypeError` (whose message does not mention `fetch`)
              -- that the outer catch handles generically
              .inl (catchHandler net url apiKey apiKeyHeader useProxy cacheTTL
                      (.typeErr (nullReadMsg "error")) s3)
            else if useProxy then
              if jsOptTruthy (jsonGet body "error") then
                let s4 : FetchState :=
                  { s3 with cache := invalidateOnError url apiKey apiKeyHeader cacheTTL
                               s3.cache }
                .inl (catchHandler net url apiKey apiKeyHeader useProxy cacheTTL
                        (.err (((jsonGet body "error").map Json.jsToString).getD
                          "Proxy request failed")) s4)
              else if jsOptTruthy (jsonGet body "data") then
                let d := jsonGet body "data"
                let s4 : FetchState :=
                  { s3 with cache := storeOnSuccess url apiKey apiKeyHeader cacheTTL d
                               s3.now s3.cache }
                .inl (⟨d, none, s3.now, false, none⟩, s4)
              else
                let s4 : FetchState :=
                  { s3 with cache := storeOnSuccess url apiKey apiKeyHeader cacheTTL
                               (some body) s3.now s3.cache }
                .inl (⟨some body, none, s3.now, false, none⟩, s4)
            else
              if jsOptTruthy (jsonGet body "error") ||
                 jsOptTruthy (jsonGet body "Error Message") ||
                 jsOptTruthy (jsonGet body "Note") then
                .inl (catchHandler net url apiKey apiKeyHeader useProxy cacheTTL
                        (.err (directApiErrorMessage url.toString body)) s3)
              else
                let s4 : FetchState :=
                  { s3 with cache := storeOnSuccess url apiKey apiKeyHeader cacheTTL
                               (some body) s3.now s3.cache }
                .inl (⟨some body, none, s3.now, false, none⟩, s4)
        | .typeErr m =>
            .inl (catchHandler net url apiKey apiKeyHeader useProxy cacheTTL
                    (.typeErr m) s3)
        | .badJson text =>
            .inl (catchHandler net url apiKey apiKeyHeader useProxy cacheTTL
                    (.err ("Invalid JSON response: " ++ strTake text 100)) s3)

/-- `fetchApiData`: run `fetchStep`, re-invoking with `retryCount + 1` on a
retry signal.  Termination: each retry site requires `retryCount < maxRetries`. -/
def fetchApiData (net : NetOracle) (url : Url) (apiKey apiKeyHeader : Option String)
    (retryCount maxRetries : Nat) (useProxy : Bool) (cacheTTL : Option Int)
    (bypassCache : Bool) (s : FetchState) : ApiResult × FetchState :=
  match h : fetchStep net url apiKey apiKeyHeader retryCount maxRetries useProxy
              cacheTTL bypassCache s with
  | .inl r => r
  | .inr s2 => fetchApiData net url apiKey apiKeyHeader (retryCount + 1) maxRetries
                 useProxy cacheTTL bypassCache s2
termination_by maxRetries - retryCount
decreasing_by
  have hlt : retryCount < maxRetries := by
    unfold fetchStep at h
    simp only [] at h
    repeat' split at h
    any_goals exact (Sum.noConfusion h)
    all_goals
      simp only [Bool.and_eq_true, decide_eq_true_eq] at *
      omega
  omega

/-! ## Concrete instances used by the theorems and witnesses below -/

/-- A representative well-formed endpoint URL. -/
def exUrl : Url := ⟨"https://api.example.com", "/data", []⟩

/-- A network in which every request answers 500 Internal Server Error. -/
def net500 : NetOracle := fun _ _ => .http 500 none "Internal Server Error" true

/-- The empty starting world at time 0. -/
def st0 : FetchState := ⟨[], [], 0, [], 0⟩

/-- The headerless direct request to `exUrl`. -/
def exCall : NetCall := ⟨exUrl.toString, none⟩

/-- A currency field buried under five wrapper objects (depth 6 from the root
of a scan, depth 5 from its first wrapper). -/
def deepCurrencyObj : Json :=
  .obj [("x", .obj [("x", .obj [("x", .obj [("x", .obj [("x",
    .obj [("currency", .str "USD")])])])])])]

/-- A payload whose currency is out of reach of the root scan but within reach
of the `data`-rooted fallback scan. -/
def deepDataPayload : Json := .obj [("data", deepCurrencyObj)]

/-- A network in which every request succeeds with a small JSON body. -/
def netOkPrice : NetOracle := fun _ _ => .ok (.obj [("price", .num 1)])


/-- An unexpired cache entry for `exUrl` (stored at 500 ms, 60 s TTL). -/
def hitEntry : CacheEntry := ⟨some (.num 7), 500, 61000, exUrl.toString⟩

/-- A world at 1000 ms whose cache already holds `hitEntry` under the request
key of `exUrl`. -/
def hitState : FetchState :=
  ⟨[(generateCacheKey exUrl none none, hitEntry)], [], 1000, [], 0⟩

/-- A world at 1000 ms holding an unexpired entry for `exUrl` while the
origin of `exUrl` is rate-limit blocked until 50000 ms. -/
def blockedHitState : FetchState :=
  ⟨[(generateCacheKey exUrl none none, hitEntry)],
   [(exUrl.origin, ⟨1, 50000⟩)], 1000, [], 0⟩

/-- A network answering 429 with a Retry-After of 30 seconds. -/
def net429 : NetOracle := fun _ _ => .http 429 (some 30) "Too many requests" true

/-- A world at 1000 ms whose record for the origin of `exUrl` expired at
500 ms. -/
def expiredLimitState : FetchState := ⟨[], [(exUrl.origin, ⟨1, 500⟩)], 1000, [], 0⟩

/-- A network that refuses the direct request with a CORS-shaped `TypeError`
but answers the proxy route with a wrapped body. -/
def netCorsOk : NetOracle := fun url _ =>
  if url = proxyUrlString exUrl none none then .ok (.obj [("data", .num 7)])
  else .typeErr "Failed to fetch"

/-- A network in which every request (direct and proxy) is refused with a
CORS-shaped `TypeError`. -/
def netCorsFail : NetOracle := fun _ _ => .typeErr "Failed to fetch"

/-- A network refusing the direct request, whose proxy route answers 200 OK
with the JSON body `null`. -/
def netCorsNullOk : NetOracle := fun url _ =>
  if url = proxyUrlString exUrl none none then .ok .null
  else .typeErr "Failed to fetch"

/-- A network refusing the direct request, whose proxy route answers 502
with a JSON error body. -/
def netCorsHttpJson : NetOracle := fun url _ =>
  if url = proxyUrlString exUrl none none then .http 502 none "Bad Gateway" true
  else .typeErr "Failed to fetch"

/-- A network refusing the direct request, whose proxy route answers 502
with a body that is not JSON. -/
def netCorsHttpRaw : NetOracle := fun url _ =>
  if url = proxyUrlString exUrl none none then .http 502 none "Bad Gateway" false
  else .typeErr "Failed to fetch"

/-! ## Theorems -/

/-- Both retry re-invocation sites of `fetchApiData` are guarded by
`retryCount < maxRetries`. -/
theorem fetchStep_inr_lt {net url apiKey apiKeyHeader retryCount maxRetries useProxy
    cacheTTL bypassCache s s2}
    (h : fetchStep net url apiKey apiKeyHeader retryCount maxRetries useProxy
           cacheTTL bypassCache s = .inr s2) : retryCount < maxRetries := by
  unfold fetchStep at h
  simp only [] at h
  repeat' split at h
  any_goals exact (Sum.noConfusion h)
  all_goals
    simp only [Bool.and_eq_true, decide_eq_true_eq] at *
    omega

/-- Unfolding of `fetchApiData` when the body finishes without retrying. -/
theorem fetchApiData_inl {net url apiKey apiKeyHeader retryCount maxRetries useProxy
    cacheTTL bypassCache s r}
    (h : fetchStep net url apiKey apiKeyHeader retryCount maxRetries useProxy
           cacheTTL bypassCache s = .inl r) :
    fetchApiData net url apiKey apiKeyHeader retryCount maxRetries useProxy
      cacheTTL bypassCache s = r := by
  unfold fetchApiData
  split
  · rename_i r2 heq
    rw [h] at heq
    cases heq
    rfl
  · rename_i s2 heq
    rw [h] at heq
    cases heq

/-- Unfolding of `fetchApiData` at a retry signal. -/
theorem fetchApiData_inr {net url apiKey apiKeyHeader retryCount maxRetries useProxy
    cacheTTL bypassCache s s2}
    (h : fetchStep net url apiKey apiKeyHeader retryCount maxRetries useProxy
           cacheTTL bypassCache s = .inr s2) :
    fetchApiData net url apiKey apiKeyHeader retryCount maxRetries useProxy
      cacheTTL bypassCache s =
    fetchApiData net url apiKey apiKeyHeader (retryCount + 1) maxRetries useProxy
      cacheTTL bypassCache s2 := by
  conv_lhs => rw [fetchApiData]
  split
  · rename_i r2 heq
    rw [h] at heq
    cases heq
  · rename_i s3 heq
    rw [h] at heq
    cases heq
    rfl

/-! ## Shared association-map lemmas -/

theorem assocGet_set {α : Type} (l : List (String × α)) (k : String) (v : α) :
    assocGet (assocSet l k v) k = some v := by
  induction l with
  | nil => simp [assocSet, assocGet]
  | cons hd tl ih =>
      by_cases h : hd.1 = k
      · simp [assocSet, assocGet, h]
      · simpa [assocSet, assocGet, h] using ih

theorem assocGet_del {α : Type} (l : List (String × α)) (k : String) :
    assocGet (assocDel l k) k = none := by
  induction l with
  | nil => simp [assocDel, assocGet]
  | cons hd tl ih =>
      by_cases h : hd.1 = k
      · simpa [assocDel, h] using ih
      · simpa [assocDel, assocGet, h] using ih

/-- `getCachedData` on a key bound to `entry`. -/
theorem getCachedData_of_get_some {key : String} {now : Int}
    {cache : List (String × CacheEntry)} {entry : CacheEntry}
    (hc : assocGet cache key = some entry) :
    getCachedData key now cache =
      if now ≥ entry.expiresAt then (none, assocDel cache key)
      else (some entry, cache) := by
  unfold getCachedData
  rw [hc]

/-- `getCachedData` on an unbound key. -/
theorem getCachedData_of_get_none {key : String} {now : Int}
    {cache : List (String × CacheEntry)} (hc : assocGet cache key = none) :
    getCachedData key now cache = (none, cache) := by
  unfold getCachedData
  rw [hc]

/-- A cache hit leaves the cache untouched. -/
theorem getCachedData_hit_state {key : String} {now : Int}
    {cache : List (String × CacheEntry)} {e : CacheEntry}
    (h : (getCachedData key now cache).1 = some e) :
    (getCachedData key now cache).2 = cache := by
  cases hc : assocGet cache key with
  | none => rw [getCachedData_of_get_none hc]
  | some entry =>
      rw [getCachedData_of_get_some hc] at h ⊢
      by_cases he : now ≥ entry.expiresAt
      · rw [if_pos he] at h
        cases h
      · rw [if_neg he]

/-! ## C5 — TTL window semantics of the cache -/

/-- C5: an entry stored with `ttlSeconds = T > 0` at time `t0` is a hit (the
stored entry itself, with `expiresAt = t0 + T*1000`, and no cache mutation) at
every time strictly before `t0 + T` seconds, and at any time at or after
`t0 + T` seconds it is a miss and the entry is removed, so callers never
observe an expired payload. -/
theorem c5_ttl_window (cache : List (String × CacheEntry)) (key : String)
    (d : Option Json) (T : Int) (u : String) (t0 t : Int) (hT : 0 < T) :
    (t < t0 + T * 1000 →
       (getCachedData key t (setCachedData key d T u t0 cache)).1 =
         some ⟨d, t0, t0 + T * 1000, u⟩ ∧
       (getCachedData key t (setCachedData key d T u t0 cache)).2 =
         setCachedData key d T u t0 cache) ∧
    (t0 + T * 1000 ≤ t →
       (getCachedData key t (setCachedData key d T u t0 cache)).1 = none ∧
       assocGet (getCachedData key t (setCachedData key d T u t0 cache)).2 key = none) := by
  have hset : assocGet (setCachedData key d T u t0 cache) key =
      some ⟨d, t0, t0 + T * 1000, u⟩ := assocGet_set ..
  constructor
  · intro hlt
    rw [getCachedData_of_get_some hset,
        if_neg (show ¬ t ≥ (⟨d, t0, t0 + T * 1000, u⟩ : CacheEntry).expiresAt by
          show ¬ t ≥ t0 + T * 1000
          omega)]
    exact ⟨rfl, rfl⟩
  · intro hge
    rw [getCachedData_of_get_some hset,
        if_pos (show t ≥ (⟨d, t0, t0 + T * 1000, u⟩ : CacheEntry).expiresAt by
          show t ≥ t0 + T * 1000
          omega)]
    exact ⟨rfl, assocGet_del ..⟩

/-- Witness for C5 at the concrete instance of the spec: `ttlSeconds = 5`,
stored at `t0 = 0`; a hit at `t = 4s`, a miss at `t = 6s`. -/
theorem c5_ttl_window_witness :
    (getCachedData "k" 4000 (setCachedData "k" (some (.num 1)) 5 "u" 0 [])).1 =
      some ⟨some (.num 1), 0, 5000, "u"⟩ ∧
    (getCachedData "k" 6000 (setCachedData "k" (some (.num 1)) 5 "u" 0 [])).1 = none :=
  ⟨((c5_ttl_window [] "k" (some (.num 1)) 5 "u" 0 4000 (by decide)).1 (by decide)).1,
   ((c5_ttl_window [] "k" (some (.num 1)) 5 "u" 0 6000 (by decide)).2 (by decide)).1⟩

/-! ## C10 — cache invariant at the public interface -/

/-- C10: every hit returned by `getCachedData` is strictly unexpired and is
the entry stored in the cache; `setCachedData` always inserts an entry with
`expiresAt = timestamp + ttlSeconds * 1000`; and an entry inserted with a
non-positive TTL is expired on arrival: at any time from its insertion on, a
lookup of its key misses and removes it, so no caller can observe it. -/
theorem c10_cache_invariant :
    (∀ (key : String) (now : Int) (cache : List (String × CacheEntry))
       (entry : CacheEntry), (getCachedData key now cache).1 = some entry →
         now < entry.expiresAt ∧ assocGet cache key = some entry) ∧
    (∀ (cache : List (String × CacheEntry)) (key : String) (d : Option Json)
       (T : Int) (u : String) (t0 : Int),
         assocGet (setCachedData key d T u t0 cache) key =
           some ⟨d, t0, t0 + T * 1000, u⟩) ∧
    (∀ (cache : List (String × CacheEntry)) (key : String) (d : Option Json)
       (T : Int) (u : String) (t0 t : Int), T ≤ 0 → t0 ≤ t →
         (getCachedData key t (setCachedData key d T u t0 cache)).1 = none ∧
         assocGet (getCachedData key t (setCachedData key d T u t0 cache)).2 key = none) := by
  refine ⟨?_, ?_, ?_⟩
  · intro key now cache entry h
    cases hc : assocGet cache key with
    | none => rw [getCachedData_of_get_none hc] at h; cases h
    | some e =>
        rw [getCachedData_of_get_some hc] at h
        by_cases he : now ≥ e.expiresAt
        · rw [if_pos he] at h
          cases h
        · rw [if_neg he] at h
          cases h
          exact ⟨by omega, rfl⟩
  · intro cache key d T u t0
    exact assocGet_set ..
  · intro cache key d T u t0 t hT ht
    have hset : assocGet (setCachedData key d T u t0 cache) key =
        some ⟨d, t0, t0 + T * 1000, u⟩ := assocGet_set ..
    rw [getCachedData_of_get_some hset,
        if_pos (show t ≥ (⟨d, t0, t0 + T * 1000, u⟩ : CacheEntry).expiresAt by
          show t ≥ t0 + T * 1000
          nlinarith)]
    exact ⟨rfl, assocGet_del ..⟩

/-- Witness for C10: a hit is unexpired; a `ttlSeconds = 0` insertion is
invisible already at its own insertion time. -/
theorem c10_cache_invariant_witness :
    ((3 : Int) < (⟨none, 0, 10, "u"⟩ : CacheEntry).expiresAt ∧
       assocGet [("k", (⟨none, 0, 10, "u"⟩ : CacheEntry))] "k" =
         some ⟨none, 0, 10, "u"⟩) ∧
    (getCachedData "k" 0 (setCachedData "k" (some (.num 2)) 0 "u" 0 [])).1 = none :=
  ⟨c10_cache_invariant.1 "k" 3 [("k", ⟨none, 0, 10, "u"⟩)] ⟨none, 0, 10, "u"⟩ rfl,
   (c10_cache_invariant.2.2 [] "k" (some (.num 2)) 0 "u" 0 0 (by decide) (by decide)).1⟩

/-! ## C2 — failure invalidates the cache entry -/

/-- C2 counterexample: with an unexpired entry under the request key and the
origin rate-limit blocked, a `bypassCache = true` call returns a Failure
outcome (`data: null`, error set) through the rate-limit short-circuit, yet
the stored entry is not invalidated: the immediately following cache lookup
for the same key is a hit, not a miss. -/
theorem c2_counterexample :
    (fetchApiData net500 exUrl none none 0 3 false (some 60) true blockedHitState).1.data
      = none ∧
    (fetchApiData net500 exUrl none none 0 3 false (some 60) true blockedHitState).1.error
      = some "Rate limit exceeded. Please wait 49 seconds before trying again." ∧
    (getCachedData (generateCacheKey exUrl none none)
       (fetchApiData net500 exUrl none none 0 3 false (some 60) true blockedHitState).2.now
       (fetchApiData net500 exUrl none none 0 3 false (some 60) true blockedHitState).2.cache).1
      = some hitEntry := by
  have hstep : fetchStep net500 exUrl none none 0 3 false (some 60) true blockedHitState =
      .inl (⟨none, some "Rate limit exceeded. Please wait 49 seconds before trying again.",
             1000, false, none⟩, blockedHitState) := rfl
  rw [fetchApiData_inl hstep]
  refine ⟨rfl, rfl, ?_⟩
  show (getCachedData (generateCacheKey exUrl none none) 1000 blockedHitState.cache).1 =
    some hitEntry
  rw [getCachedData_of_get_some
    (show assocGet blockedHitState.cache (generateCacheKey exUrl none none) =
       some hitEntry from rfl)]
  rw [if_neg (by decide)]

/-- C2 (amended): a Failure outcome produced through the generic error
handler — any thrown error that is not replayed through the CORS proxy
fallback — invalidates the stored entry when `cacheTTL > 0`, so the
immediately following cache lookup for that key misses; concretely, a 500
response with no retry budget left surfaces as such a Failure and removes the
entry.  (The rate-limit short-circuit, by contrast, returns Failure without
touching the cache — see the counterexample.) -/
theorem c2_failure_invalidation :
    (∀ (net : NetOracle) (u : Url) (k h : Option String) (up : Bool)
       (T : Int) (msg : String) (s : FetchState), 0 < T →
       catchHandler net u k h up (some T) (.err msg) s =
         (⟨none, some msg, s.now, false, none⟩,
          { s with cache := invalidateCache (generateCacheKey u k h) s.cache }) ∧
       (∀ t : Int, (getCachedData (generateCacheKey u k h) t
          (invalidateCache (generateCacheKey u k h) s.cache)).1 = none)) ∧
    (∀ (net : NetOracle) (u : Url) (k h : Option String) (mr : Nat)
       (T : Int) (msg : String) (bj : Bool) (s : FetchState), 0 < T →
       assocGet s.rateLimits u.origin = none →
       net u.toString s.now = .http 500 none msg bj →
       fetchApiData net u k h mr mr false (some T) true s =
         (⟨none, some msg, s.now, false, none⟩,
          { s with
            calls := s.calls ++ [⟨u.toString,
              authHeaderOf (shouldSendAuthHeader false u.toString k h) k h⟩],
            cache := invalidateCache (generateCacheKey u k h) s.cache }) ∧
       (getCachedData (generateCacheKey u k h) s.now
          (invalidateCache (generateCacheKey u k h) s.cache)).1 = none) := by
  constructor
  · intro net u k h up T msg s hT
    constructor
    · unfold catchHandler
      simp only [invalidateOnError, ttlPos, decide_eq_true_eq, if_pos hT, failureResult]
    · intro t
      rw [getCachedData_of_get_none
        (show assocGet (invalidateCache (generateCacheKey u k h) s.cache)
           (generateCacheKey u k h) = none from assocGet_del ..)]
  · intro net u k h mr T msg bj s hT hrl hnet
    constructor
    · have hstep : fetchStep net u k h mr mr false (some T) true s =
          .inl (⟨none, some msg, s.now, false, none⟩,
           { s with
             calls := s.calls ++ [⟨u.toString,
               authHeaderOf (shouldSendAuthHeader false u.toString k h) k h⟩],
             cache := invalidateCache (generateCacheKey u k h) s.cache }) := by
        unfold fetchStep
        simp only [Bool.not_true, Bool.false_and, Bool.false_eq_true, if_false,
          checkRateLimit, hrl, hnet]
        simp [catchHandler, invalidateOnError, ttlPos, if_pos hT, failureResult]
      exact fetchApiData_inl hstep
    · rw [getCachedData_of_get_none
        (show assocGet (invalidateCache (generateCacheKey u k h) s.cache)
           (generateCacheKey u k h) = none from assocGet_del ..)]

/-- Witness for C2 (amended): a concrete generic failure invalidates and the
following lookup misses. -/
theorem c2_failure_invalidation_witness :
    catchHandler net500 exUrl none none false (some 60) (.err "boom") hitState =
      (⟨none, some "boom", hitState.now, false, none⟩,
       { hitState with
         cache := invalidateCache (generateCacheKey exUrl none none) hitState.cache }) ∧
    (getCachedData (generateCacheKey exUrl none none) 1000
       (invalidateCache (generateCacheKey exUrl none none) hitState.cache)).1 = none :=
  ⟨(c2_failure_invalidation.1 net500 exUrl none none false 60 "boom" hitState
      (by decide)).1,
   (c2_failure_invalidation.1 net500 exUrl none none false 60 "boom" hitState
      (by decide)).2 1000⟩

/-! ## C3 — per-origin rate limiting -/

/-- C3: (i) a 429 response (here surfacing with no retry budget left) records
the origin as blocked with `blockedUntil = now + RetryAfter*1000` when the
header is present, else `now + 60*1000`, and the record maps the origin to
exactly that reset time; (ii) while the origin is blocked, a call that does
not consult the cache returns a rate-limited Failure carrying the remaining
wait in whole seconds, leaving the entire state — including the network
trace — untouched; (iii) the first rate-limit check at or after the reset
time deletes the origin's record and the call proceeds to a normal network
attempt (shown completing on a successful, non-null response body). -/
theorem c3_rate_limiting :
    (∀ (net : NetOracle) (u : Url) (k h : Option String) (mr : Nat)
       (ra : Option Int) (msg : String) (bj : Bool) (s : FetchState),
       assocGet s.rateLimits u.origin = none →
       net u.toString s.now = .http 429 ra msg bj →
       fetchApiData net u k h mr mr false none true s =
         (⟨none, some ("API rate limit exceeded. Please wait " ++
             toString (rateLimitWait (s.now + (ra.getD 60) * 1000) s.now) ++
             " seconds before trying again."), s.now, false, none⟩,
          { s with
            calls := s.calls ++ [⟨u.toString,
              authHeaderOf (shouldSendAuthHeader false u.toString k h) k h⟩],
            rateLimits := recordRateLimit u.origin (s.now + (ra.getD 60) * 1000)
              s.rateLimits }) ∧
       assocGet (recordRateLimit u.origin (s.now + (ra.getD 60) * 1000) s.rateLimits)
           u.origin = some ⟨1, s.now + (ra.getD 60) * 1000⟩) ∧
    (∀ (net : NetOracle) (u : Url) (k h : Option String) (rc mr : Nat)
       (up bc : Bool) (ttl : Option Int) (s : FetchState) (l : RateLimitEntry),
       assocGet s.rateLimits u.origin = some l → s.now < l.resetTime →
       (if (!bc && ttlPos ttl) then
          getCachedData (generateCacheKey u k h) s.now s.cache
        else (none, s.cache)).1 = none →
       fetchApiData net u k h rc mr up ttl bc s =
         (⟨none, some ("Rate limit exceeded. Please wait " ++
             toString (ceilDiv (l.resetTime - s.now) 1000) ++
             " seconds before trying again."), s.now, false, none⟩,
          { s with cache := (if (!bc && ttlPos ttl) then
              getCachedData (generateCacheKey u k h) s.now s.cache
            else (none, s.cache)).2 })) ∧
    (∀ (net : NetOracle) (u : Url) (k h : Option String) (rc mr : Nat)
       (s : FetchState) (l : RateLimitEntry) (body : Json),
       assocGet s.rateLimits u.origin = some l → l.resetTime ≤ s.now →
       net u.toString s.now = .ok body →
       body.isNull = false →
       jsOptTruthy (jsonGet body "error") = false →
       jsOptTruthy (jsonGet body "Error Message") = false →
       jsOptTruthy (jsonGet body "Note") = false →
       checkRateLimit u.origin s.now s.rateLimits =
         ⟨false, none, assocDel s.rateLimits u.origin⟩ ∧
       fetchApiData net u k h rc mr false none true s =
         (⟨some body, none, s.now, false, none⟩,
          { s with
            rateLimits := assocDel s.rateLimits u.origin,
            calls := s.calls ++ [⟨u.toString,
              authHeaderOf (shouldSendAuthHeader false u.toString k h) k h⟩] })) := by
  refine ⟨?_, ?_, ?_⟩
  · intro net u k h mr ra msg bj s hrl hnet
    constructor
    · have hstep : fetchStep net u k h mr mr false none true s =
          .inl (⟨none, some ("API rate limit exceeded. Please wait " ++
              toString (rateLimitWait (s.now + (ra.getD 60) * 1000) s.now) ++
              " seconds before trying again."), s.now, false, none⟩,
           { s with
             calls := s.calls ++ [⟨u.toString,
               authHeaderOf (shouldSendAuthHeader false u.toString k h) k h⟩],
             rateLimits := recordRateLimit u.origin (s.now + (ra.getD 60) * 1000)
               s.rateLimits }) := by
        unfold fetchStep
        simp [checkRateLimit, hrl, hnet, catchHandler, invalidateOnError, ttlPos,
          failureResult]
      exact fetchApiData_inl hstep
    · exact assocGet_set ..
  · intro net u k h rc mr up bc ttl s l hrl hlt hlook
    simp only [Bool.and_eq_true, Bool.not_eq_true'] at hlook
    have hstep : fetchStep net u k h rc mr up ttl bc s =
        .inl (⟨none, some ("Rate limit exceeded. Please wait " ++
            toString (ceilDiv (l.resetTime - s.now) 1000) ++
            " seconds before trying again."), s.now, false, none⟩,
         { s with cache := (if (!bc && ttlPos ttl) then
             getCachedData (generateCacheKey u k h) s.now s.cache
           else (none, s.cache)).2 }) := by
      unfold fetchStep
      simp [hlook, checkRateLimit, hrl, hlt, failureResult]
    exact fetchApiData_inl hstep
  · intro net u k h rc mr s l body hrl hge hnet hbn he1 he2 he3
    have hchk : checkRateLimit u.origin s.now s.rateLimits =
        ⟨false, none, assocDel s.rateLimits u.origin⟩ := by
      unfold checkRateLimit
      simp only [hrl]
      rw [if_neg (show ¬ s.now < l.resetTime by omega)]
    refine ⟨hchk, ?_⟩
    have hstep : fetchStep net u k h rc mr false none true s =
        .inl (⟨some body, none, s.now, false, none⟩,
         { s with
           rateLimits := assocDel s.rateLimits u.origin,
           calls := s.calls ++ [⟨u.toString,
             authHeaderOf (shouldSendAuthHeader false u.toString k h) k h⟩] }) := by
      unfold fetchStep
      simp only [Bool.not_true, Bool.false_and, Bool.false_eq_true, if_false, hchk,
        hnet, hbn, he1, he2, he3, Bool.or_self, Bool.or_false, Bool.false_or,
        storeOnSuccess]
    exact fetchApiData_inl hstep

/-- Witness for C3: a concrete 429 blocks the origin for its Retry-After of
30 s; a blocked origin fast-fails with the remaining 49 s; an expired record
is dropped and the network attempt proceeds. -/
theorem c3_rate_limiting_witness :
    (fetchApiData net429 exUrl none none 3 3 false none true st0 =
       (⟨none, some ("API rate limit exceeded. Please wait " ++
           toString (rateLimitWait (st0.now + 30 * 1000) st0.now) ++
           " seconds before trying again."), st0.now, false, none⟩,
        { st0 with
          calls := st0.calls ++ [⟨exUrl.toString,
            authHeaderOf (shouldSendAuthHeader false exUrl.toString none none)
              none none⟩],
          rateLimits := recordRateLimit exUrl.origin (st0.now + 30 * 1000)
            st0.rateLimits }) ∧
     assocGet (recordRateLimit exUrl.origin (st0.now + 30 * 1000) st0.rateLimits)
         exUrl.origin = some ⟨1, st0.now + 30 * 1000⟩) ∧
    fetchApiData net500 exUrl none none 0 3 false none true blockedHitState =
      (⟨none, some ("Rate limit exceeded. Please wait " ++
          toString (ceilDiv ((50000 : Int) - blockedHitState.now) 1000) ++
          " seconds before trying again."), blockedHitState.now, false, none⟩,
       blockedHitState) ∧
    fetchApiData netOkPrice exUrl none none 0 3 false none true expiredLimitState =
      (⟨some (.obj [("price", .num 1)]), none, expiredLimitState.now, false, none⟩,
       { expiredLimitState with
         rateLimits := assocDel expiredLimitState.rateLimits exUrl.origin,
         calls := expiredLimitState.calls ++ [⟨exUrl.toString,
           authHeaderOf (shouldSendAuthHeader false exUrl.toString none none)
             none none⟩] }) :=
  ⟨c3_rate_limiting.1 net429 exUrl none none 3 (some 30) "Too many requests" true
     st0 rfl rfl,
   c3_rate_limiting.2.1 net500 exUrl none none 0 3 false true none blockedHitState
     ⟨1, 50000⟩ rfl (by decide) rfl,
   (c3_rate_limiting.2.2 netOkPrice exUrl none none 0 3 expiredLimitState
     ⟨1, 500⟩ (.obj [("price", .num 1)]) rfl (by decide) rfl rfl rfl rfl rfl).2⟩

/-! ## C4 — CORS proxy fallback -/

/-- C4: a direct request failing with a CORS-shaped transport error (a
`TypeError` whose message mentions `fetch`) is replayed through the proxy
endpoint exactly once — the network trace grows by exactly the direct call
and one proxy call — before anything is surfaced: (a) a proxy success with a
non-null JSON body returns the proxy body's `data` (cached when
`cacheTTL > 0`); (b) a proxy success whose body is `null` makes the
`proxyData.data` access throw, so the CORS failure is returned with no cache
write; (c) a proxy failure at transport level returns a Failure with the
CORS-specific explanation; (d) a non-OK proxy response whose body parses as
JSON additionally invalidates the cache entry before the CORS failure, while
(e) a non-OK proxy response whose body is not JSON skips the invalidation
(the unguarded `json()` throws first); and (f) a request already on the proxy
path returns the Failure directly, with no further proxy retry. -/
theorem c4_cors_fallback :
    (∀ (net : NetOracle) (u : Url) (k h : Option String) (rc mr : Nat)
       (T : Int) (s : FetchState) (m : String) (body : Json), 0 < T →
       assocGet s.rateLimits u.origin = none →
       net u.toString s.now = .typeErr m →
       jsIncludes m "fetch" = true →
       net (proxyUrlString u k h) s.now = .ok body →
       body.isNull = false →
       fetchApiData net u k h rc mr false (some T) true s =
         (⟨jsonGet body "data", none, s.now, false, none⟩,
          { s with
            calls := s.calls ++ [⟨u.toString,
                authHeaderOf (shouldSendAuthHeader false u.toString k h) k h⟩,
              ⟨proxyUrlString u k h, none⟩],
            cache := setCachedData (generateCacheKey u k h) (jsonGet body "data") T
              u.toString s.now s.cache })) ∧
    (∀ (net : NetOracle) (u : Url) (k h : Option String) (rc mr : Nat)
       (T : Int) (s : FetchState) (m : String), 0 < T →
       assocGet s.rateLimits u.origin = none →
       net u.toString s.now = .typeErr m →
       jsIncludes m "fetch" = true →
       net (proxyUrlString u k h) s.now = .ok .null →
       fetchApiData net u k h rc mr false (some T) true s =
         (⟨none, some corsFailureMsg, s.now, false, none⟩,
          { s with
            calls := s.calls ++ [⟨u.toString,
                authHeaderOf (shouldSendAuthHeader false u.toString k h) k h⟩,
              ⟨proxyUrlString u k h, none⟩] })) ∧
    (∀ (net : NetOracle) (u : Url) (k h : Option String) (rc mr : Nat)
       (T : Int) (s : FetchState) (m m2 : String), 0 < T →
       assocGet s.rateLimits u.origin = none →
       net u.toString s.now = .typeErr m →
       jsIncludes m "fetch" = true →
       net (proxyUrlString u k h) s.now = .typeErr m2 →
       fetchApiData net u k h rc mr false (some T) true s =
         (⟨none, some corsFailureMsg, s.now, false, none⟩,
          { s with
            calls := s.calls ++ [⟨u.toString,
                authHeaderOf (shouldSendAuthHeader false u.toString k h) k h⟩,
              ⟨proxyUrlString u k h, none⟩] })) ∧
    (∀ (net : NetOracle) (u : Url) (k h : Option String) (rc mr : Nat)
       (T : Int) (s : FetchState) (m m2 : String) (status : Nat)
       (ra : Option Int), 0 < T →
       assocGet s.rateLimits u.origin = none →
       net u.toString s.now = .typeErr m →
       jsIncludes m "fetch" = true →
       net (proxyUrlString u k h) s.now = .http status ra m2 true →
       fetchApiData net u k h rc mr false (some T) true s =
         (⟨none, some corsFailureMsg, s.now, false, none⟩,
          { s with
            calls := s.calls ++ [⟨u.toString,
                authHeaderOf (shouldSendAuthHeader false u.toString k h) k h⟩,
              ⟨proxyUrlString u k h, none⟩],
            cache := invalidateCache (generateCacheKey u k h) s.cache })) ∧
    (∀ (net : NetOracle) (u : Url) (k h : Option String) (rc mr : Nat)
       (T : Int) (s : FetchState) (m m2 : String) (status : Nat)
       (ra : Option Int), 0 < T →
       assocGet s.rateLimits u.origin = none →
       net u.toString s.now = .typeErr m →
       jsIncludes m "fetch" = true →
       net (proxyUrlString u k h) s.now = .http status ra m2 false →
       fetchApiData net u k h rc mr false (some T) true s =
         (⟨none, some corsFailureMsg, s.now, false, none⟩,
          { s with
            calls := s.calls ++ [⟨u.toString,
                authHeaderOf (shouldSendAuthHeader false u.toString k h) k h⟩,
              ⟨proxyUrlString u k h, none⟩] })) ∧
    (∀ (net : NetOracle) (u : Url) (k h : Option String) (rc mr : Nat)
       (s : FetchState) (m : String),
       assocGet s.rateLimits u.origin = none →
       net (proxyUrlString u k h) s.now = .typeErr m →
       fetchApiData net u k h rc mr true none true s =
         (⟨none, some m, s.now, false, none⟩,
          { s with calls := s.calls ++ [⟨proxyUrlString u k h, none⟩] })) := by
  refine ⟨?_, ?_, ?_, ?_, ?_, ?_⟩
  · intro net u k h rc mr T s m body hT hrl hnet hm hproxy hbn
    have hstep : fetchStep net u k h rc mr false (some T) true s =
        .inl (⟨jsonGet body "data", none, s.now, false, none⟩,
         { s with
           calls := s.calls ++ [⟨u.toString,
               authHeaderOf (shouldSendAuthHeader false u.toString k h) k h⟩,
             ⟨proxyUrlString u k h, none⟩],
           cache := setCachedData (generateCacheKey u k h) (jsonGet body "data") T
             u.toString s.now s.cache }) := by
      unfold fetchStep
      simp [checkRateLimit, hrl, hnet, catchHandler, hm, hproxy, hbn,
        storeOnSuccess, if_pos hT]
    exact fetchApiData_inl hstep
  · intro net u k h rc mr T s m hT hrl hnet hm hproxy
    have hstep : fetchStep net u k h rc mr false (some T) true s =
        .inl (⟨none, some corsFailureMsg, s.now, false, none⟩,
         { s with
           calls := s.calls ++ [⟨u.toString,
               authHeaderOf (shouldSendAuthHeader false u.toString k h) k h⟩,
             ⟨proxyUrlString u k h, none⟩] }) := by
      unfold fetchStep
      simp [checkRateLimit, hrl, hnet, catchHandler, hm, hproxy, Json.isNull,
        failureResult]
    exact fetchApiData_inl hstep
  · intro net u k h rc mr T s m m2 hT hrl hnet hm hproxy
    have hstep : fetchStep net u k h rc mr false (some T) true s =
        .inl (⟨none, some corsFailureMsg, s.now, false, none⟩,
         { s with
           calls := s.calls ++ [⟨u.toString,
               authHeaderOf (shouldSendAuthHeader false u.toString k h) k h⟩,
             ⟨proxyUrlString u k h, none⟩] }) := by
      unfold fetchStep
      simp [checkRateLimit, hrl, hnet, catchHandler, hm, hproxy, failureResult]
    exact fetchApiData_inl hstep
  · intro net u k h rc mr T s m m2 status ra hT hrl hnet hm hproxy
    have hstep : fetchStep net u k h rc mr false (some T) true s =
        .inl (⟨none, some corsFailureMsg, s.now, false, none⟩,
         { s with
           calls := s.calls ++ [⟨u.toString,
               authHeaderOf (shouldSendAuthHeader false u.toString k h) k h⟩,
             ⟨proxyUrlString u k h, none⟩],
           cache := invalidateCache (generateCacheKey u k h) s.cache }) := by
      unfold fetchStep
      simp [checkRateLimit, hrl, hnet, catchHandler, hm, hproxy, failureResult,
        invalidateOnError, ttlPos, if_pos hT]
    exact fetchApiData_inl hstep
  · intro net u k h rc mr T s m m2 status ra hT hrl hnet hm hproxy
    have hstep : fetchStep net u k h rc mr false (some T) true s =
        .inl (⟨none, some corsFailureMsg, s.now, false, none⟩,
         { s with
           calls := s.calls ++ [⟨u.toString,
               authHeaderOf (shouldSendAuthHeader false u.toString k h) k h⟩,
             ⟨proxyUrlString u k h, none⟩] }) := by
      unfold fetchStep
      simp [checkRateLimit, hrl, hnet, catchHandler, hm, hproxy, failureResult]
    exact fetchApiData_inl hstep
  · intro net u k h rc mr s m hrl hnet
    have hstep : fetchStep net u k h rc mr true none true s =
        .inl (⟨none, some m, s.now, false, none⟩,
         { s with calls := s.calls ++ [⟨proxyUrlString u k h, none⟩] }) := by
      unfold fetchStep
      simp [checkRateLimit, hrl, hnet, catchHandler, invalidateOnError, ttlPos,
        failureResult, shouldSendAuthHeader, authHeaderOf]
    exact fetchApiData_inl hstep

/-- Witness for C4: with concrete CORS-refusing networks, the direct request
is replayed once through the proxy — success, null-body, transport-failure
and both non-OK variants (the JSON error body invalidates the stored entry,
the non-JSON one leaves it) — and a proxy-path request fails directly. -/
theorem c4_cors_fallback_witness :
    fetchApiData netCorsOk exUrl none none 0 3 false (some 60) true st0 =
      (⟨some (.num 7), none, st0.now, false, none⟩,
       { st0 with
         calls := st0.calls ++ [⟨exUrl.toString,
             authHeaderOf (shouldSendAuthHeader false exUrl.toString none none)
               none none⟩,
           ⟨proxyUrlString exUrl none none, none⟩],
         cache := setCachedData (generateCacheKey exUrl none none) (some (.num 7))
           60 exUrl.toString st0.now st0.cache }) ∧
    fetchApiData netCorsNullOk exUrl none none 0 3 false (some 60) true st0 =
      (⟨none, some corsFailureMsg, st0.now, false, none⟩,
       { st0 with
         calls := st0.calls ++ [⟨exUrl.toString,
             authHeaderOf (shouldSendAuthHeader false exUrl.toString none none)
               none none⟩,
           ⟨proxyUrlString exUrl none none, none⟩] }) ∧
    fetchApiData netCorsFail exUrl none none 0 3 false (some 60) true st0 =
      (⟨none, some corsFailureMsg, st0.now, false, none⟩,
       { st0 with
         calls := st0.calls ++ [⟨exUrl.toString,
             authHeaderOf (shouldSendAuthHeader false exUrl.toString none none)
               none none⟩,
           ⟨proxyUrlString exUrl none none, none⟩] }) ∧
    fetchApiData netCorsHttpJson exUrl none none 0 3 false (some 60) true hitState =
      (⟨none, some corsFailureMsg, hitState.now, false, none⟩,
       { hitState with
         calls := hitState.calls ++ [⟨exUrl.toString,
             authHeaderOf (shouldSendAuthHeader false exUrl.toString none none)
               none none⟩,
           ⟨proxyUrlString exUrl none none, none⟩],
         cache := invalidateCache (generateCacheKey exUrl none none)
           hitState.cache }) ∧
    fetchApiData netCorsHttpRaw exUrl none none 0 3 false (some 60) true hitState =
      (⟨none, some corsFailureMsg, hitState.now, false, none⟩,
       { hitState with
         calls := hitState.calls ++ [⟨exUrl.toString,
             authHeaderOf (shouldSendAuthHeader false exUrl.toString none none)
               none none⟩,
           ⟨proxyUrlString exUrl none none, none⟩] }) ∧
    fetchApiData netCorsFail exUrl none none 0 3 true none true st0 =
      (⟨none, some "Failed to fetch", st0.now, false, none⟩,
       { st0 with calls := st0.calls ++ [⟨proxyUrlString exUrl none none, none⟩] }) :=
  ⟨c4_cors_fallback.1 netCorsOk exUrl none none 0 3 60 st0 "Failed to fetch"
     (.obj [("data", .num 7)]) (by decide) rfl rfl (by decide) rfl rfl,
   c4_cors_fallback.2.1 netCorsNullOk exUrl none none 0 3 60 st0 "Failed to fetch"
     (by decide) rfl rfl (by decide) rfl,
   c4_cors_fallback.2.2.1 netCorsFail exUrl none none 0 3 60 st0 "Failed to fetch"
     "Failed to fetch" (by decide) rfl rfl (by decide) rfl,
   c4_cors_fallback.2.2.2.1 netCorsHttpJson exUrl none none 0 3 60 hitState
     "Failed to fetch" "Bad Gateway" 502 none (by decide) rfl rfl (by decide) rfl,
   c4_cors_fallback.2.2.2.2.1 netCorsHttpRaw exUrl none none 0 3 60 hitState
     "Failed to fetch" "Bad Gateway" 502 none (by decide) rfl rfl (by decide) rfl,
   c4_cors_fallback.2.2.2.2.2 netCorsFail exUrl none none 0 3 st0 "Failed to fetch"
     rfl rfl⟩

/-! ## C8 — retry termination and backoff budget -/

/-- The outer catch performs at most one extra (proxy) network request. -/
theorem catchHandler_calls_le (net : NetOracle) (u : Url) (k h : Option String)
    (up : Bool) (ttl : Option Int) (e : Thrown) (s : FetchState) :
    (catchHandler net u k h up ttl e s).2.calls.length ≤ s.calls.length + 1 := by
  cases e with
  | err msg => simp [catchHandler]
  | typeErr msg =>
      simp only [catchHandler]
      by_cases hc : (jsIncludes msg "fetch" && !up) = true
      · rw [if_pos hc]
        cases net (proxyUrlString u k h) s.now <;> simp only [] <;>
          (try split) <;> simp [List.length_append]
      · rw [if_neg hc]
        simp

/-- One finishing pass of the body performs at most two network requests
(the main request plus at most one proxy replay). -/
theorem fetchStep_calls_inl {net url apiKey apiKeyHeader retryCount maxRetries useProxy
    cacheTTL bypassCache s r}
    (h : fetchStep net url apiKey apiKeyHeader retryCount maxRetries useProxy
           cacheTTL bypassCache s = .inl r) :
    r.2.calls.length ≤ s.calls.length + 2 := by
  unfold fetchStep at h
  simp only [] at h
  repeat' split at h
  any_goals exact (Sum.noConfusion h)
  all_goals injection h with h2
  all_goals rw [← h2]
  all_goals
    first
      | (simp only [List.length_append, List.length_cons, List.length_nil]
         omega)
      | (refine le_trans (catchHandler_calls_le ..) ?_
         simp only [List.length_append, List.length_cons, List.length_nil]
         omega)

/-- A retrying pass of the body performs exactly one network request. -/
theorem fetchStep_calls_inr {net url apiKey apiKeyHeader retryCount maxRetries useProxy
    cacheTTL bypassCache s s2}
    (h : fetchStep net url apiKey apiKeyHeader retryCount maxRetries useProxy
           cacheTTL bypassCache s = .inr s2) :
    s2.calls.length = s.calls.length + 1 := by
  unfold fetchStep at h
  simp only [] at h
  repeat' split at h
  any_goals exact (Sum.noConfusion h)
  all_goals injection h with h2
  all_goals rw [← h2]
  all_goals
    simp only [List.length_append, List.length_cons, List.length_nil]

theorem fetchApiData_calls_le_aux (net : NetOracle) (u : Url) (k h : Option String)
    (mr : Nat) (up bc : Bool) (ttl : Option Int) :
    ∀ (fuel rc : Nat), mr - rc ≤ fuel → ∀ s : FetchState,
      (fetchApiData net u k h rc mr up ttl bc s).2.calls.length ≤
        s.calls.length + (mr - rc) + 2 := by
  intro fuel
  induction fuel with
  | zero =>
      intro rc hf s
      cases hstep : fetchStep net u k h rc mr up ttl bc s with
      | inl r =>
          rw [fetchApiData_inl hstep]
          have := fetchStep_calls_inl hstep
          omega
      | inr s2 =>
          have := fetchStep_inr_lt hstep
          omega
  | succ n ih =>
      intro rc hf s
      cases hstep : fetchStep net u k h rc mr up ttl bc s with
      | inl r =>
          rw [fetchApiData_inl hstep]
          have := fetchStep_calls_inl hstep
          omega
      | inr s2 =>
          rw [fetchApiData_inr hstep]
          have h1 := fetchStep_inr_lt hstep
          have h2 := fetchStep_calls_inr hstep
          have h3 := ih (rc + 1) (by omega) s2
          omega

/-- C8: the retry recursion of `fetchApiData` is total (the definition
terminates on every input, each retry site being guarded by
`retryCount < maxRetries`), the whole call performs at most
`maxRetries - retryCount` retries on top of the first request and one
possible proxy replay — bounded here through the length of the network
trace — and a `maxRetries = 2` budget against a permanently failing 5xx
server performs exactly the three requests `1 + 2` retries and accumulates
exactly `1 + 2 = 3` seconds of simulated exponential backoff (1 s then 2 s)
before the server error surfaces as a Failure. -/
theorem c8_retry_termination :
    (∀ (net : NetOracle) (u : Url) (k h : Option String) (rc mr : Nat)
       (up bc : Bool) (ttl : Option Int) (s : FetchState),
       (fetchApiData net u k h rc mr up ttl bc s).2.calls.length ≤
         s.calls.length + (mr - rc) + 2) ∧
    fetchApiData net500 exUrl none none 0 2 false none false st0 =
      (⟨none, some "Internal Server Error", 3000, false, none⟩,
       ⟨[], [], 3000, [exCall, exCall, exCall], 3000⟩) := by
  constructor
  · intro net u k h rc mr up bc ttl s
    exact fetchApiData_calls_le_aux net u k h mr up bc ttl (mr - rc) rc le_rfl s
  · have h1 : fetchStep net500 exUrl none none 0 2 false none false st0 =
        .inr ⟨[], [], 1000, [exCall], 1000⟩ := rfl
    have h2 : fetchStep net500 exUrl none none 1 2 false none false
        ⟨[], [], 1000, [exCall], 1000⟩ =
        .inr ⟨[], [], 3000, [exCall, exCall], 3000⟩ := rfl
    have h3 : fetchStep net500 exUrl none none 2 2 false none false
        ⟨[], [], 3000, [exCall, exCall], 3000⟩ =
        .inl (⟨none, some "Internal Server Error", 3000, false, none⟩,
              ⟨[], [], 3000, [exCall, exCall, exCall], 3000⟩) := rfl
    rw [fetchApiData_inr h1, fetchApiData_inr h2, fetchApiData_inl h3]

/-! ## C9 — auth header attachment condition -/

/-- C9: on the direct request path the credential is attached as a custom
header if and only if both the API key and the header name are non-empty
after trimming and the raw URL does not already embed an auth-shaped query
parameter (`token=`, `apikey=`, `api_key=`, `key=`); in particular any URL
containing one of those substrings gets no custom auth header, and the
performed network request records exactly the header this decision allows. -/
theorem c9_auth_header_condition :
    (∀ (rawUrl : String) (k h : Option String),
       shouldSendAuthHeader false rawUrl k h =
         (jsTrim (k.getD "") != "" && jsTrim (h.getD "") != "" &&
          !(jsIncludes rawUrl "token=" || jsIncludes rawUrl "apikey=" ||
            jsIncludes rawUrl "api_key=" || jsIncludes rawUrl "key="))) ∧
    (∀ (rawUrl : String) (k h : Option String),
       (jsIncludes rawUrl "token=" || jsIncludes rawUrl "apikey=" ||
        jsIncludes rawUrl "api_key=" || jsIncludes rawUrl "key=") = true →
       shouldSendAuthHeader false rawUrl k h = false) ∧
    (∀ (net : NetOracle) (u : Url) (k h : Option String) (rc mr : Nat) (T : Int)
       (s : FetchState) (body : Json), 0 < T →
       assocGet s.rateLimits u.origin = none →
       net u.toString s.now = .ok body →
       jsOptTruthy (jsonGet body "error") = false →
       jsOptTruthy (jsonGet body "Error Message") = false →
       jsOptTruthy (jsonGet body "Note") = false →
       (fetchApiData net u k h rc mr false (some T) true s).2.calls =
         s.calls ++ [⟨u.toString,
           authHeaderOf (shouldSendAuthHeader false u.toString k h) k h⟩]) := by
  have heq : ∀ (rawUrl : String) (k h : Option String),
      shouldSendAuthHeader false rawUrl k h =
        (jsTrim (k.getD "") != "" && jsTrim (h.getD "") != "" &&
         !(jsIncludes rawUrl "token=" || jsIncludes rawUrl "apikey=" ||
           jsIncludes rawUrl "api_key=" || jsIncludes rawUrl "key=")) := by
    intro rawUrl k h
    cases k with
    | none => simp [shouldSendAuthHeader, jsStrTruthy, show jsTrim "" = "" from rfl]
    | some ks =>
        cases h with
        | none => simp [shouldSendAuthHeader, jsStrTruthy, show jsTrim "" = "" from rfl]
        | some hs =>
            by_cases hk : ks = ""
            · subst hk
              simp [shouldSendAuthHeader, jsStrTruthy, show jsTrim "" = "" from rfl]
            · by_cases hh : hs = ""
              · subst hh
                simp [shouldSendAuthHeader, jsStrTruthy, show jsTrim "" = "" from rfl]
              · have hk2 : (ks != "") = true := by simp [hk]
                have hh2 : (hs != "") = true := by simp [hh]
                simp [shouldSendAuthHeader, jsStrTruthy, hk2, hh2]
  refine ⟨heq, ?_, ?_⟩
  · intro rawUrl k h hc
    rw [heq]
    simp [hc]
  · intro net u k h rc mr T s body hT hrl hnet he1 he2 he3
    by_cases hb : body.isNull = true
    · have hbody : body = .null := by
        cases body <;> first | rfl | simp [Json.isNull] at hb
      subst hbody
      have hstep : fetchStep net u k h rc mr false (some T) true s =
          .inl (failureResult (nullReadMsg "error") s.now,
           { s with
             calls := s.calls ++ [⟨u.toString,
               authHeaderOf (shouldSendAuthHeader false u.toString k h) k h⟩],
             cache := invalidateCache (generateCacheKey u k h) s.cache }) := by
        unfold fetchStep
        simp [checkRateLimit, hrl, hnet, catchHandler, Json.isNull,
          show jsIncludes (nullReadMsg "error") "fetch" = false from rfl,
          invalidateOnError, ttlPos, if_pos hT]
      rw [fetchApiData_inl hstep]
    · have hb2 : body.isNull = false := by simpa using hb
      have hstep : fetchStep net u k h rc mr false (some T) true s =
          .inl (⟨some body, none, s.now, false, none⟩,
           { s with
             calls := s.calls ++ [⟨u.toString,
               authHeaderOf (shouldSendAuthHeader false u.toString k h) k h⟩],
             cache := setCachedData (generateCacheKey u k h) (some body) T
               u.toString s.now s.cache }) := by
        unfold fetchStep
        simp only [Bool.not_true, Bool.false_and, Bool.false_eq_true, if_false,
          checkRateLimit, hrl, hnet, hb2, he1, he2, he3, Bool.or_self, Bool.or_false,
          Bool.false_or, storeOnSuccess, if_pos hT]
      rw [fetchApiData_inl hstep]

/-- Witness for C9: the header decision evaluates per the characterization on
a clean URL; an embedded `key=` parameter suppresses the header; a performed
request records the allowed header. -/
theorem c9_auth_header_condition_witness :
    shouldSendAuthHeader false "https://h/p" (some "abc") (some "x-api-key") =
      (jsTrim "abc" != "" && jsTrim "x-api-key" != "" &&
       !(jsIncludes "https://h/p" "token=" || jsIncludes "https://h/p" "apikey=" ||
         jsIncludes "https://h/p" "api_key=" || jsIncludes "https://h/p" "key=")) ∧
    shouldSendAuthHeader false "https://h/p?key=abc" (some "abc") (some "x-api-key")
      = false ∧
    (fetchApiData netOkPrice exUrl (some "abc") (some "x-api-key") 0 3 false
        (some 60) true st0).2.calls =
      st0.calls ++ [⟨exUrl.toString,
        authHeaderOf (shouldSendAuthHeader false exUrl.toString (some "abc")
          (some "x-api-key")) (some "abc") (some "x-api-key")⟩] :=
  ⟨c9_auth_header_condition.1 "https://h/p" (some "abc") (some "x-api-key"),
   c9_auth_header_condition.2.1 "https://h/p?key=abc" (some "abc") (some "x-api-key")
     (by decide),
   c9_auth_header_condition.2.2 netOkPrice exUrl (some "abc") (some "x-api-key")
     0 3 60 st0 (.obj [("price", .num 1)]) (by decide) rfl rfl rfl rfl rfl⟩

/-! ## C6 — nested path resolution -/

/-- C6: `getNestedValue` resolves the spec's examples
(`{a:{b:[{c:5}]}}`/`"a.b[0].c"` to `5`, `{a:1}`/`"a.b"` to not-found, and the
root-array probe `[10,20]`/`"[1]"`, whose bracket segment has an empty
property part, to not-found), and in general resolution is a total function
(no exception can be raised) that returns not-found the moment any segment
fails — an absent property, a non-object intermediate, or an out-of-bounds or
malformed index all make `resolveKey` return `none`, and a failed segment
makes the rest of the path moot. -/
theorem c6_nested_path_resolution :
    getNestedValue (.obj [("a", .obj [("b", .arr [.obj [("c", .num 5)]])])]) "a.b[0].c" =
      some (.num 5) ∧
    getNestedValue (.obj [("a", .num 1)]) "a.b" = none ∧
    getNestedValue (.arr [.num 10, .num 20]) "[1]" = none ∧
    (∀ (current : Json) (key : String) (rest : List String),
       resolveKey current key = none → resolvePath current (key :: rest) = none) ∧
    (∀ (obj : Json) (path : String),
       getNestedValue obj path = resolvePath obj (jsSplit path ".")) := by
  refine ⟨rfl, rfl, rfl, ?_, fun _ _ => rfl⟩
  intro current key rest h
  unfold resolvePath
  rw [h]

/-- Witness for C6: a failed first segment (property access on the number `1`)
makes the whole path resolution return not-found. -/
theorem c6_nested_path_resolution_witness :
    resolvePath (.num 1) ["b", "c"] = none :=
  c6_nested_path_resolution.2.2.2.1 (.num 1) "b" ["c"] rfl

/-! ## C7 — currency detection -/

/-- C7 counterexample: on `{x: {currency: "EUR"}, currency: "USD"}` the
claimed traversal order (all own keys before any nested object) would find the
own key `currency` and report USD at path `currency`; the code scans key by
key and descends into the value of the earlier key `x` before reaching the
later own key, reporting EUR at path `x.currency`. -/
theorem c7_counterexample :
    detectCurrency (.obj [("x", .obj [("currency", .str "EUR")]),
                          ("currency", .str "USD")]) =
      some ⟨"EUR", "€", "x.currency"⟩ ∧
    detectCurrency (.obj [("x", .obj [("currency", .str "EUR")]),
                          ("currency", .str "USD")]) ≠
      some ⟨"USD", "$", "currency"⟩ := by
  exact ⟨rfl, by decide⟩

/-- C7 (amended): `detectCurrency {quote: {currency: "USD", price: 100}}`
returns `{code: "USD", symbol: "$", path: "quote.currency"}`; the scan is
depth-bounded at 5 levels; traversal is depth-first in key order — each key's
own-name check runs first, then the descent into that key's non-array object
value, and only then the next key — with the first match winning; an array
node is scanned through its first element at the next depth; and when the
root scan finds nothing the same scan (with a fresh depth budget) is retried
rooted at the `data` sub-property and then at the first element of a
root-level array before `none` is returned. -/
theorem c7_currency_detection :
    detectCurrency (.obj [("quote", .obj [("currency", .str "USD"),
                                          ("price", .num 100)])]) =
      some ⟨"USD", "$", "quote.currency"⟩ ∧
    (∀ (j : Json) (p : String) (m d : Nat), m < d →
       findCurrencyInObject j p m d = none) ∧
    (∀ (k : String) (v : Json) (rest : List (String × Json)) (p : String) (m d : Nat),
       findCurrencyInFields ((k, v) :: rest) p m d =
         match checkCurrencyKey k v p with
         | some r => some r
         | none =>
             match (match v with
                    | .obj _ => findCurrencyInObject v (extendPath p k) m (d + 1)
                    | _ => none) with
             | some r => some r
             | none => findCurrencyInFields rest p m d) ∧
    (∀ (x : Json) (xs : List Json) (p : String) (m d : Nat), d ≤ m →
       findCurrencyInObject (.arr (x :: xs)) p m d =
         findCurrencyInObject x p m (d + 1)) ∧
    detectCurrency deepDataPayload = some ⟨"USD", "$", "data.x.x.x.x.x.currency"⟩ ∧
    detectCurrency (.arr [deepCurrencyObj]) =
      some ⟨"USD", "$", "[0].x.x.x.x.x.currency"⟩ := by
  refine ⟨rfl, ?_, fun _ _ _ _ _ _ => rfl, ?_, rfl, rfl⟩
  · intro j p m d h
    have hgt : d > m := h
    cases j with
    | null => rw [findCurrencyInObject, if_pos hgt]
    | bool b => rw [findCurrencyInObject, if_pos hgt]
    | num n => rw [findCurrencyInObject, if_pos hgt]
    | str s => rw [findCurrencyInObject, if_pos hgt]
    | obj fields => rw [findCurrencyInObject, if_pos hgt]
    | arr elems =>
        cases elems with
        | nil => rw [findCurrencyInObject, if_pos hgt]
        | cons x xs => rw [findCurrencyInObject, if_pos hgt]
  · intro x xs p m d hd
    conv_lhs => rw [findCurrencyInObject]
    rw [if_neg (show ¬ d > m by omega)]

/-! ## C1 — cache idempotence and key stability -/

theorem str_eq_of_data_eq {a b : String} (h : a.data = b.data) : a = b := by
  cases a
  cases b
  cases h
  rfl

instance : IsAntisymm (String × String) keyLT :=
  ⟨fun a b h1 h2 => (h1.2 (str_eq_of_data_eq (le_antisymm h1.1 h2.1))).elim⟩

theorem sorted_keyLT_of_sorted_nodup {l : List (String × String)}
    (hs : List.Sorted keyLE l) (hn : (l.map Prod.fst).Nodup) :
    List.Sorted keyLT l := by
  have hne : l.Pairwise (fun a b => a.1 ≠ b.1) := List.pairwise_map.mp hn
  exact hs.and hne

/-- Two permuted parameter lists with pairwise-distinct names sort to the
same list (the sort is stable and the sorted order is then unique). -/
theorem insertionSort_keyLE_eq_of_perm_nodup {l₁ l₂ : List (String × String)}
    (hp : l₁.Perm l₂) (hn : (l₁.map Prod.fst).Nodup) :
    List.insertionSort keyLE l₁ = List.insertionSort keyLE l₂ := by
  have hps : (List.insertionSort keyLE l₁).Perm (List.insertionSort keyLE l₂) :=
    (List.perm_insertionSort keyLE l₁).trans
      (hp.trans (List.perm_insertionSort keyLE l₂).symm)
  have hn1 : ((List.insertionSort keyLE l₁).map Prod.fst).Nodup :=
    (List.Perm.nodup_iff ((List.perm_insertionSort keyLE l₁).map Prod.fst)).mpr hn
  have hn2 : ((List.insertionSort keyLE l₂).map Prod.fst).Nodup :=
    (List.Perm.nodup_iff (hps.map Prod.fst)).mp hn1
  exact List.eq_of_perm_of_sorted hps
    (sorted_keyLT_of_sorted_nodup (List.sorted_insertionSort keyLE l₁) hn1)
    (sorted_keyLT_of_sorted_nodup (List.sorted_insertionSort keyLE l₂) hn2)

/-- C1 counterexample: two URLs carrying the same query parameters (a
permutation of `a=1&a=2`) generate different cache keys, because the sort of
`generateCacheKey` is stable and compares only parameter names, leaving
duplicate names in their original order.  A repeat call that supplies the
duplicated parameter in the other order therefore misses the cache. -/
theorem c1_counterexample :
    List.Perm [("a", "1"), ("a", "2")] [("a", "2"), ("a", "1")] ∧
    generateCacheKey ⟨"https://h", "/p", [("a", "1"), ("a", "2")]⟩ none none ≠
      generateCacheKey ⟨"https://h", "/p", [("a", "2"), ("a", "1")]⟩ none none :=
  ⟨by decide, by decide⟩

/-- C1 (amended): (a) URLs differing only in the order of their query
parameters map to the identical cache key provided the parameter names are
pairwise distinct; (b) while an unexpired entry sits under the request key and
`cacheTTL > 0`, a `bypassCache = false` call returns that entry's payload
marked `fromCache` with its stored timestamp and age, performs no network
request and leaves the whole state unchanged; (c) a `bypassCache = true` call
(on an origin that is not rate-limited) always performs a fresh network
request, and on success — an OK response whose JSON body is non-null and
carries no in-body error field — returns the fresh payload and refreshes the
cache entry under the same key.  (An OK response with a null body instead
follows the thrown-TypeError path of the generic handler.) -/
theorem c1_cache_idempotence :
    (∀ (o p : String) (ps₁ ps₂ : List (String × String)) (k h : Option String),
       ps₁.Perm ps₂ → (ps₁.map Prod.fst).Nodup →
       generateCacheKey ⟨o, p, ps₁⟩ k h = generateCacheKey ⟨o, p, ps₂⟩ k h) ∧
    (∀ (net : NetOracle) (u : Url) (k h : Option String) (rc mr : Nat) (up : Bool)
       (T : Int) (s : FetchState) (e : CacheEntry), 0 < T →
       (getCachedData (generateCacheKey u k h) s.now s.cache).1 = some e →
       fetchApiData net u k h rc mr up (some T) false s =
         (⟨e.data, none, e.timestamp, true,
           getCacheAge (generateCacheKey u k h) s.now s.cache⟩, s)) ∧
    (∀ (net : NetOracle) (u : Url) (k h : Option String) (rc mr : Nat)
       (T : Int) (s : FetchState) (body : Json), 0 < T →
       assocGet s.rateLimits u.origin = none →
       net u.toString s.now = .ok body →
       body.isNull = false →
       jsOptTruthy (jsonGet body "error") = false →
       jsOptTruthy (jsonGet body "Error Message") = false →
       jsOptTruthy (jsonGet body "Note") = false →
       fetchApiData net u k h rc mr false (some T) true s =
         (⟨some body, none, s.now, false, none⟩,
          { s with
            calls := s.calls ++ [⟨u.toString,
              authHeaderOf (shouldSendAuthHeader false u.toString k h) k h⟩],
            cache := setCachedData (generateCacheKey u k h) (some body) T
              u.toString s.now s.cache })) := by
  refine ⟨?_, ?_, ?_⟩
  · intro o p ps₁ ps₂ k h hp hn
    unfold generateCacheKey
    rw [insertionSort_keyLE_eq_of_perm_nodup hp hn]
  · intro net u k h rc mr up T s e hT hget
    have hstate := getCachedData_hit_state hget
    have hdo : (!false && ttlPos (some T)) = true := by
      simp only [ttlPos, Bool.not_false, Bool.true_and, decide_eq_true_eq]
      exact hT
    have hstep : fetchStep net u k h rc mr up (some T) false s =
        .inl (⟨e.data, none, e.timestamp, true,
          getCacheAge (generateCacheKey u k h) s.now s.cache⟩, s) := by
      unfold fetchStep
      simp only [hdo, if_true, hget, hstate]
    exact fetchApiData_inl hstep
  · intro net u k h rc mr T s body hT hrl hnet hbn he1 he2 he3
    have hstep : fetchStep net u k h rc mr false (some T) true s =
        .inl (⟨some body, none, s.now, false, none⟩,
         { s with
           calls := s.calls ++ [⟨u.toString,
             authHeaderOf (shouldSendAuthHeader false u.toString k h) k h⟩],
           cache := setCachedData (generateCacheKey u k h) (some body) T
             u.toString s.now s.cache }) := by
      unfold fetchStep
      simp only [Bool.not_true, Bool.false_and, Bool.false_eq_true, if_false,
        checkRateLimit, hrl, hnet, hbn, he1, he2, he3, Bool.or_self, Bool.or_false,
        Bool.false_or, storeOnSuccess, if_pos hT]
    exact fetchApiData_inl hstep

/-- Witness for C1: a distinct-key parameter swap maps to one key; a concrete
unexpired entry is served from the cache untouched; a concrete bypass call
fetches fresh data and stores it. -/
theorem c1_cache_idempotence_witness :
    generateCacheKey ⟨"https://h", "/p", [("a", "1"), ("b", "2")]⟩ none none =
      generateCacheKey ⟨"https://h", "/p", [("b", "2"), ("a", "1")]⟩ none none ∧
    fetchApiData net500 exUrl none none 0 3 false (some 60) false hitState =
      (⟨hitEntry.data, none, hitEntry.timestamp, true,
        getCacheAge (generateCacheKey exUrl none none) hitState.now hitState.cache⟩,
       hitState) ∧
    fetchApiData netOkPrice exUrl none none 0 3 false (some 60) true st0 =
      (⟨some (.obj [("price", .num 1)]), none, st0.now, false, none⟩,
       { st0 with
         calls := st0.calls ++ [⟨exUrl.toString,
           authHeaderOf (shouldSendAuthHeader false exUrl.toString none none) none none⟩],
         cache := setCachedData (generateCacheKey exUrl none none)
           (some (.obj [("price", .num 1)])) 60 exUrl.toString st0.now st0.cache }) :=
  ⟨c1_cache_idempotence.1 "https://h" "/p" [("a", "1"), ("b", "2")]
     [("b", "2"), ("a", "1")] none none (by decide) (by decide),
   c1_cache_idempotence.2.1 net500 exUrl none none 0 3 false 60 hitState hitEntry
     (by decide) rfl,
   c1_cache_idempotence.2.2 netOkPrice exUrl none none 0 3 60 st0
     (.obj [("price", .num 1)]) (by decide) rfl rfl rfl rfl rfl rfl⟩

/-- Witness for C7: the depth guard fires one level past the bound, and an
array node hands the scan to its first element at the next depth. -/
theorem c7_currency_detection_witness :
    findCurrencyInObject (.str "USD") "p" 5 6 = none ∧
    findCurrencyInObject (.arr [.obj [("currency", .str "USD")]]) "" 5 0 =
      findCurrencyInObject (.obj [("currency", .str "USD")]) "" 5 1 :=
  ⟨c7_currency_detection.2.1 (.str "USD") "p" 5 6 (by decide),
   c7_currency_detection.2.2.2.1 (.obj [("currency", .str "USD")]) [] "" 5 0 (by decide)⟩

end FinBoard
